import Mathlib

/-!
# MultiPressButton: a shallow embedding of the press classifier

The development follows `src/MultiPressButton.h` and `src/MultiPressButton.cpp`.

Modelling conventions.

* `unsigned long` is the 32-bit type of the Arduino targets the library is written
  for. A timestamp is a natural number below `ULONG_MOD = 2 ^ 32`; the one
  arithmetic operation the source performs on timestamps, unsigned subtraction, is
  `usub`, reduced modulo `ULONG_MOD`.
* `int pressCount` is an integer (`Int`); signed overflow is undefined in C++ and
  is not modelled.
* A `std::function<void()>` slot is a `Bool`: `true` when the slot holds a callable
  (the source only ever tests the slot and calls it). Calling a handler appends the
  slot to the ghost trace `invoked`; handlers are assumed not to touch the button
  they are called from.
* `millis()` and `digitalRead()` are arguments of the function that reads them.
* Member functions take the object first and return the updated object.
* The sampler runs from a timer interrupt and `process` from the main loop. A sampler
  pass is one step, never interrupted itself. In `process`, `processAll` and the results
  about them a `process` call is one step as well. `processIrq` and `run` let sampler
  passes run inside a `process` call, at the three places where that makes a difference
  to the call: before an evaluation of the loop condition, before the assignment to
  `readIndex` at the end of an iteration, and between the end of the loop and the read of
  `lastButtonPosition` for the timeout check.
* `pinMode` and `TimerLib.setInterval_us` belong to the platform; a call of either is
  recorded in a trace.
-/

/-- The two raw positions of a button (`enum ButtonPosition`). -/
inductive ButtonPosition where
  | PRESSED
  | RELEASED
deriving DecidableEq, Repr, Inhabited

/-- A timestamped transition (`struct ButtonEvent`). -/
structure ButtonEvent where
  timestamp : Nat
  buttonPosition : ButtonPosition
deriving DecidableEq, Repr, Inhabited

/-- The classifier states (`enum StateMachineState`). -/
inductive StateMachineState where
  | IDLE
  | PRESSING
  | LONG_PRESSED
  | WAITING_MULTIPRESS
deriving DecidableEq, Repr, Inhabited

/-- The four handler slots; an entry of the trace `invoked` names the slot called. -/
inductive Handler where
  | single
  | doubl
  | triple
  | longPress
deriving DecidableEq, Repr, Inhabited

/-- Modulus of `unsigned long` arithmetic. -/
def ULONG_MOD : Nat := 2 ^ 32

/-- Unsigned subtraction `a - b` of two `unsigned long` values. -/
def usub (a b : Nat) : Nat := (a + (ULONG_MOD - b % ULONG_MOD)) % ULONG_MOD

/-- Capacity of the ring buffer (`RING_BUFFER_SIZE`, a power of two). -/
def RING_BUFFER_SIZE : Nat := 32

/-- The data members of `class MultiPressButton`, in declaration order, followed by
the ghost trace of handler calls. -/
structure MultiPressButton where
  pin : Nat
  mode : Nat
  singleAction : Bool
  doubleAction : Bool
  tripleAction : Bool
  longPressAction : Bool
  pressCount : Int
  pressStart : Nat
  lastPressTime : Nat
  lastButtonPosition : ButtonPosition
  lastDebounceTime : Nat
  state : StateMachineState
  singlePressed : Bool
  doublePressed : Bool
  triplePressed : Bool
  longPressed : Bool
  BUTTON_DEBOUNCE : Nat
  LONG_PRESS_DURATION : Nat
  MULTI_PRESS_WINDOW : Nat
  timerInitialized : Bool
  eventBuffer : List ButtonEvent
  writeIndex : Nat
  readIndex : Nat
  invoked : List Handler
deriving DecidableEq, Repr

/-- The constructor `MultiPressButton::MultiPressButton`. The array `eventBuffer` is
not in the initialiser list, so its initial content `mem` is whatever the storage
holds. -/
def MultiPressButton.ctor (pin mode debounce_ms longPress_ms multi_press_window_ms : Nat)
    (mem : List ButtonEvent) : MultiPressButton where
  pin := pin
  mode := mode
  singleAction := false
  doubleAction := false
  tripleAction := false
  longPressAction := false
  pressCount := 0
  pressStart := 0
  lastPressTime := 0
  lastButtonPosition := .RELEASED
  lastDebounceTime := 0
  state := .IDLE
  singlePressed := false
  doublePressed := false
  triplePressed := false
  longPressed := false
  BUTTON_DEBOUNCE := debounce_ms
  LONG_PRESS_DURATION := longPress_ms
  MULTI_PRESS_WINDOW := multi_press_window_ms
  timerInitialized := false
  eventBuffer := mem
  writeIndex := 0
  readIndex := 0
  invoked := []

/-- A call of the handler in slot `a`. -/
def MultiPressButton.call (b : MultiPressButton) (a : Handler) : MultiPressButton :=
  { b with invoked := b.invoked ++ [a] }

/-- The test `_isBufferFull`. -/
def MultiPressButton._isBufferFull (b : MultiPressButton) : Bool :=
  ((b.writeIndex + 1) &&& (RING_BUFFER_SIZE - 1)) == b.readIndex

/-- The producer `_addEvent`; `millis` is the clock reading taken inside it. -/
def MultiPressButton._addEvent (b : MultiPressButton) (buttonPosition : ButtonPosition)
    (millis : Nat) : MultiPressButton :=
  if b._isBufferFull then b
  else
    { b with
      eventBuffer := b.eventBuffer.set b.writeIndex ⟨millis, buttonPosition⟩
      writeIndex := (b.writeIndex + 1) &&& (RING_BUFFER_SIZE - 1) }

/-- The state machine `_processEvent`. -/
def MultiPressButton._processEvent (b : MultiPressButton) (event : ButtonEvent) :
    MultiPressButton :=
  match b.state with
  | .IDLE | .WAITING_MULTIPRESS =>
    let b : MultiPressButton :=
      if event.buttonPosition = .PRESSED then
        { b with longPressed := false, pressStart := event.timestamp, state := .PRESSING }
      else b
    if b.state = .WAITING_MULTIPRESS ∧
        usub event.timestamp b.lastPressTime > b.MULTI_PRESS_WINDOW then
      let b : MultiPressButton :=
        if b.pressCount ≥ 3 then
          let b : MultiPressButton := { b with singlePressed := false, doublePressed := false }
          if b.tripleAction then { b.call .triple with triplePressed := false }
          else { b with triplePressed := true }
        else if b.pressCount = 2 then
          let b : MultiPressButton := { b with singlePressed := false, triplePressed := false }
          if b.doubleAction then { b.call .doubl with doublePressed := false }
          else { b with doublePressed := true }
        else if b.pressCount = 1 then
          let b : MultiPressButton := { b with doublePressed := false, triplePressed := false }
          if b.singleAction then { b.call .single with singlePressed := false }
          else { b with singlePressed := true }
        else b
      { b with pressCount := 0, state := .IDLE }
    else b
  | .PRESSING =>
    if event.buttonPosition = .PRESSED then
      if b.longPressed = false ∧ b.pressCount = 0 ∧
          usub event.timestamp b.pressStart ≥ b.LONG_PRESS_DURATION then
        let b : MultiPressButton := { b with longPressed := true }
        let b : MultiPressButton :=
          if b.longPressAction then { b.call .longPress with longPressed := false } else b
        { b with state := .LONG_PRESSED }
      else b
    else
      let b : MultiPressButton :=
        { b with pressCount := b.pressCount + 1, lastPressTime := event.timestamp }
      if b.pressCount = 1 ∧ b.singleAction = true ∧ b.doubleAction = false ∧
          b.tripleAction = false then
        { b.call .single with pressCount := 0, state := .IDLE }
      else if b.pressCount = 2 ∧ b.doubleAction = true ∧ b.tripleAction = false then
        { b.call .doubl with pressCount := 0, state := .IDLE }
      else if b.pressCount ≥ 3 ∧ b.tripleAction = true then
        { b.call .triple with pressCount := 0, state := .IDLE }
      else { b with state := .WAITING_MULTIPRESS }
  | .LONG_PRESSED =>
    if event.buttonPosition = .RELEASED then { b with pressCount := 0, state := .IDLE }
    else b

/-- The poll accessor `singlePress`: the value returned and the object afterwards. -/
def MultiPressButton.singlePress (b : MultiPressButton) : Bool × MultiPressButton :=
  let value := b.singlePressed
  (value, { b with singlePressed := false })

/-- The poll accessor `doublePress`. -/
def MultiPressButton.doublePress (b : MultiPressButton) : Bool × MultiPressButton :=
  let value := b.doublePressed
  (value, { b with doublePressed := false })

/-- The poll accessor `triplePress`. -/
def MultiPressButton.triplePress (b : MultiPressButton) : Bool × MultiPressButton :=
  let value := b.triplePressed
  (value, { b with triplePressed := false })

/-- The poll accessor `longPress`. -/
def MultiPressButton.longPress (b : MultiPressButton) : Bool × MultiPressButton :=
  let value := b.longPressed
  (value, { b with longPressed := false })

/-- The registration call `setActions`. -/
def MultiPressButton.setActions (b : MultiPressButton)
    (single doubl triple longPress : Bool) : MultiPressButton :=
  { b with
    singleAction := single
    doubleAction := doubl
    tripleAction := triple
    longPressAction := longPress }

/-- The `while (readIndex != writeIndex)` loop of `process`, run for at most `fuel`
iterations; `none` when the loop condition still holds after `fuel` iterations. -/
def MultiPressButton.processLoop : Nat → MultiPressButton → Option MultiPressButton
  | 0, b => if b.readIndex ≠ b.writeIndex then none else some b
  | fuel + 1, b =>
    if b.readIndex ≠ b.writeIndex then
      let event : ButtonEvent :=
        ⟨(b.eventBuffer.getD b.readIndex default).timestamp,
         (b.eventBuffer.getD b.readIndex default).buttonPosition⟩
      let b : MultiPressButton := b._processEvent event
      processLoop fuel { b with readIndex := (b.readIndex + 1) &&& (RING_BUFFER_SIZE - 1) }
    else some b

/-- The main-loop entry point `process`; `millis` is the clock reading taken for the
timeout check. After its first iteration the loop index is below `RING_BUFFER_SIZE`
and cycles through those values, so a loop that has not ended after
`RING_BUFFER_SIZE` iterations never ends: `none` stands for that case. -/
def MultiPressButton.process (b : MultiPressButton) (millis : Nat) :
    Option MultiPressButton :=
  (b.processLoop RING_BUFFER_SIZE).map fun b =>
    let timeoutCheck : ButtonEvent := ⟨millis, b.lastButtonPosition⟩
    b._processEvent timeoutCheck

/-- Classification of a list of events in order, each by one `_processEvent` call. -/
def MultiPressButton.classify (b : MultiPressButton) (events : List ButtonEvent) :
    MultiPressButton :=
  events.foldl MultiPressButton._processEvent b

/-- A run of `process` calls, one per clock reading, in order. -/
def MultiPressButton.processAll (b : MultiPressButton) : List Nat → Option MultiPressButton
  | [] => some b
  | t :: ts => (b.process t).bind fun b1 => b1.processAll ts

/-! ## Event sequences: clicks and timeout checks

`process` ends with a synthetic timeout check that carries the last raw position, so
the checks that fall between the Pressed and the Released event of a click carry the
position Pressed, and the checks after a Released event carry the position Released. -/

/-- Timeout checks at the clock readings `ts`, all carrying position `p`. -/
def checks (p : ButtonPosition) (ts : List Nat) : List ButtonEvent :=
  ts.map fun t => ⟨t, p⟩

/-- One click: a Pressed event, the timeout checks made while the button is down, the
Released event, and the timeout checks made afterwards while the button is up. -/
structure Click where
  pressAt : Nat
  holdChecks : List Nat
  releaseAt : Nat
  waitChecks : List Nat
deriving DecidableEq, Repr

/-- The events of one click, in order. -/
def Click.events (c : Click) : List ButtonEvent :=
  (⟨c.pressAt, .PRESSED⟩ :: checks .PRESSED c.holdChecks) ++
    (⟨c.releaseAt, .RELEASED⟩ :: checks .RELEASED c.waitChecks)

/-- The events of a sequence of clicks, in order. -/
def clicksEvents : List Click → List ButtonEvent
  | [] => []
  | c :: cs => c.events ++ clicksEvents cs

/-- Release time of the last click of `cs`, or `d` when there is none. -/
def lastRelease : Nat → List Click → Nat
  | d, [] => d
  | _, c :: cs => lastRelease c.releaseAt cs

/-- Press time of the last click of `cs`, or `d` when there is none. -/
def lastPress : Nat → List Click → Nat
  | d, [] => d
  | _, c :: cs => lastPress c.pressAt cs


/-- The events of three clicks, preceded by timeout checks at the readings `lead`. -/
def threeClicks (lead : List Nat) (c1 c2 c3 : Click) : List ButtonEvent :=
  checks .RELEASED lead ++ (c1.events ++ (c2.events ++ c3.events))

/-- All four poll flags are unset. -/
def MultiPressButton.noFlag (b : MultiPressButton) : Prop :=
  b.singlePressed = false ∧ b.doublePressed = false ∧ b.triplePressed = false ∧
    b.longPressed = false

instance (b : MultiPressButton) : Decidable b.noFlag := by
  unfold MultiPressButton.noFlag
  infer_instance

/-- The property `P` holds in the state `b` and after each event of the run `events`. -/
def AlongRun (P : MultiPressButton → Prop) : MultiPressButton → List ButtonEvent → Prop
  | b, [] => P b
  | b, e :: es => P b ∧ AlongRun P (b._processEvent e) es


/-- The queue of a button in poll mode (debounce 50, long press 1000, window 1000) whose
main loop stalled while the user clicked at 0..100 and again at 5000..5100: the four
transitions sit in the ring buffer, pushed by `_addEvent`. -/
def stalledLoopQueue : MultiPressButton :=
  ((((MultiPressButton.ctor 2 2 50 1000 1000 (List.replicate 32 default))._addEvent
    .PRESSED 0)._addEvent .RELEASED 100)._addEvent .PRESSED 5000)._addEvent .RELEASED 5100

/-! ## The edge sampler and the registration call -/

/-- The Arduino level `LOW`. -/
def LOW : Nat := 0

/-- The polling interval `POLL_INTERVAL`, in milliseconds. -/
def POLL_INTERVAL : Nat := 10

/-- The body of the loop of `_pollButtons` for one button: `level` is the value of
`digitalRead(button->getPin())`, `now` the clock reading taken in the loop body and
`millis` the clock reading taken inside `_addEvent`. -/
def MultiPressButton._pollButton (b : MultiPressButton) (level now millis : Nat) :
    MultiPressButton :=
  let buttonPosition : ButtonPosition := if level = LOW then .PRESSED else .RELEASED
  if buttonPosition = b.lastButtonPosition then b
  else if usub now b.lastDebounceTime ≥ b.BUTTON_DEBOUNCE then
    let b : MultiPressButton := b._addEvent buttonPosition millis
    { b with lastDebounceTime := now, lastButtonPosition := buttonPosition }
  else b

/-- The loop of `_pollButtons` from the `i`-th registered button on: `digitalRead` gives
the level of each pin and `clock i` the two clock readings taken for the `i`-th button. -/
def _pollButtonsFrom (digitalRead : Nat → Nat) (clock : Nat → Nat × Nat) :
    Nat → List MultiPressButton → List MultiPressButton
  | _, [] => []
  | i, b :: bs =>
    b._pollButton (digitalRead b.pin) (clock i).1 (clock i).2 ::
      _pollButtonsFrom digitalRead clock (i + 1) bs

/-- The sampler `_pollButtons`, applied to the registered buttons. -/
def _pollButtons (digitalRead : Nat → Nat) (clock : Nat → Nat × Nat)
    (buttonList : List MultiPressButton) : List MultiPressButton :=
  _pollButtonsFrom digitalRead clock 0 buttonList

/-- What one sampler pass reads for one button: the pin level and the two clock
readings. -/
structure Tick where
  level : Nat
  now : Nat
  millis : Nat
deriving DecidableEq, Repr

/-- The raw position a tick shows (active low). -/
def Tick.position (t : Tick) : ButtonPosition :=
  if t.level = LOW then .PRESSED else .RELEASED

/-- The event `_addEvent` builds when the tick is accepted. -/
def Tick.event (t : Tick) : ButtonEvent := ⟨t.millis, t.position⟩

/-- A run of sampler passes over one button. -/
def MultiPressButton.pollTicks (b : MultiPressButton) (ticks : List Tick) :
    MultiPressButton :=
  ticks.foldl (fun b t => b._pollButton t.level t.now t.millis) b

/-- The slots of the ring buffer `buf` from index `r` up to, not including, index `w`,
going round the ring. -/
def ringSlice (buf : List ButtonEvent) (r w : Nat) : List ButtonEvent :=
  (List.range ((w + RING_BUFFER_SIZE - r) % RING_BUFFER_SIZE)).map
    fun i => buf.getD ((r + i) % RING_BUFFER_SIZE) default

/-- The events waiting in the queue, oldest first: the slots from `readIndex` up to, not
including, `writeIndex`. -/
def MultiPressButton.queued (b : MultiPressButton) : List ButtonEvent :=
  ringSlice b.eventBuffer b.readIndex b.writeIndex

/-- A run of `_addEvent` calls, one per event of `pushes`. -/
def MultiPressButton.addEvents (b : MultiPressButton) (pushes : List ButtonEvent) :
    MultiPressButton :=
  pushes.foldl (fun b e => b._addEvent e.buttonPosition e.timestamp) b

/-- The process-wide state that `setup` works on: the button objects (a pointer is an
index into `buttons`), the static `buttonList`, and the calls made so far to the
external `pinMode` and `TimerLib.setInterval_us` (the interval passed). -/
structure Sketch where
  buttons : List MultiPressButton
  buttonList : List Nat
  pinModeCalls : List (Nat × Nat)
  setIntervalCalls : List Nat
deriving DecidableEq, Repr

/-- The call `setup()` on the button object at index `this`. -/
def Sketch.setup (s : Sketch) (this : Nat) : Sketch :=
  match s.buttons[this]? with
  | none => s
  | some b =>
    let s : Sketch :=
      { s with
        pinModeCalls := s.pinModeCalls ++ [(b.pin, b.mode)]
        buttonList := s.buttonList ++ [this] }
    if !b.timerInitialized then
      { s with
        setIntervalCalls := s.setIntervalCalls ++ [POLL_INTERVAL * 1000]
        buttons := s.buttons.set this { b with timerInitialized := true } }
    else s


/-- The button with `readIndex` set to `x`, as at the end of an iteration of the loop of
`process`. -/
def MultiPressButton.withReadIndex (b : MultiPressButton) (x : Nat) : MultiPressButton :=
  { b with readIndex := x }

/-- The fifteen ways one `_processEvent` call on `b` can go, for an event at time `ts`:
each constructor lists the conditions the code tests and the button that results. -/
inductive Transition (b : MultiPressButton) (ts : Nat) :
    ButtonPosition → MultiPressButton → Prop
  | press (hs : b.state = .IDLE ∨ b.state = .WAITING_MULTIPRESS) :
      Transition b ts .PRESSED
        { b with longPressed := false, pressStart := ts, state := .PRESSING }
  | idleReleased (hs : b.state = .IDLE) : Transition b ts .RELEASED b
  | waitingWithin (hs : b.state = .WAITING_MULTIPRESS)
      (hw : usub ts b.lastPressTime ≤ b.MULTI_PRESS_WINDOW) : Transition b ts .RELEASED b
  | expiredSingle (hs : b.state = .WAITING_MULTIPRESS)
      (hw : b.MULTI_PRESS_WINDOW < usub ts b.lastPressTime) (hc : b.pressCount = 1) :
      Transition b ts .RELEASED
        { b with
          singlePressed := !b.singleAction
          doublePressed := false
          triplePressed := false
          invoked := if b.singleAction then b.invoked ++ [.single] else b.invoked
          pressCount := 0
          state := .IDLE }
  | expiredDouble (hs : b.state = .WAITING_MULTIPRESS)
      (hw : b.MULTI_PRESS_WINDOW < usub ts b.lastPressTime) (hc : b.pressCount = 2) :
      Transition b ts .RELEASED
        { b with
          singlePressed := false
          doublePressed := !b.doubleAction
          triplePressed := false
          invoked := if b.doubleAction then b.invoked ++ [.doubl] else b.invoked
          pressCount := 0
          state := .IDLE }
  | expiredTriple (hs : b.state = .WAITING_MULTIPRESS)
      (hw : b.MULTI_PRESS_WINDOW < usub ts b.lastPressTime) (hc : 3 ≤ b.pressCount) :
      Transition b ts .RELEASED
        { b with
          singlePressed := false
          doublePressed := false
          triplePressed := !b.tripleAction
          invoked := if b.tripleAction then b.invoked ++ [.triple] else b.invoked
          pressCount := 0
          state := .IDLE }
  | expiredNone (hs : b.state = .WAITING_MULTIPRESS)
      (hw : b.MULTI_PRESS_WINDOW < usub ts b.lastPressTime) (hc : b.pressCount ≤ 0) :
      Transition b ts .RELEASED { b with pressCount := 0, state := .IDLE }
  | longPress (hs : b.state = .PRESSING) (hl : b.longPressed = false)
      (hc : b.pressCount = 0) (hd : b.LONG_PRESS_DURATION ≤ usub ts b.pressStart) :
      Transition b ts .PRESSED
        { b with
          longPressed := !b.longPressAction
          invoked := if b.longPressAction then b.invoked ++ [.longPress] else b.invoked
          state := .LONG_PRESSED }
  | held (hs : b.state = .PRESSING)
      (hn : ¬ (b.longPressed = false ∧ b.pressCount = 0 ∧
        b.LONG_PRESS_DURATION ≤ usub ts b.pressStart)) : Transition b ts .PRESSED b
  | releaseSingle (hs : b.state = .PRESSING) (hc : b.pressCount = 0)
      (hsa : b.singleAction = true) (hda : b.doubleAction = false)
      (hta : b.tripleAction = false) :
      Transition b ts .RELEASED
        { b with
          lastPressTime := ts
          invoked := b.invoked ++ [.single]
          pressCount := 0
          state := .IDLE }
  | releaseDouble (hs : b.state = .PRESSING) (hc : b.pressCount = 1)
      (hda : b.doubleAction = true) (hta : b.tripleAction = false) :
      Transition b ts .RELEASED
        { b with
          lastPressTime := ts
          invoked := b.invoked ++ [.doubl]
          pressCount := 0
          state := .IDLE }
  | releaseTriple (hs : b.state = .PRESSING) (hc : 2 ≤ b.pressCount)
      (hta : b.tripleAction = true) :
      Transition b ts .RELEASED
        { b with
          lastPressTime := ts
          invoked := b.invoked ++ [.triple]
          pressCount := 0
          state := .IDLE }
  | releaseCounted (hs : b.state = .PRESSING)
      (h1 : ¬ (b.pressCount + 1 = 1 ∧ b.singleAction = true ∧ b.doubleAction = false ∧
        b.tripleAction = false))
      (h2 : ¬ (b.pressCount + 1 = 2 ∧ b.doubleAction = true ∧ b.tripleAction = false))
      (h3 : ¬ (b.pressCount + 1 ≥ 3 ∧ b.tripleAction = true)) :
      Transition b ts .RELEASED
        { b with
          pressCount := b.pressCount + 1
          lastPressTime := ts
          state := .WAITING_MULTIPRESS }
  | longHeld (hs : b.state = .LONG_PRESSED) : Transition b ts .PRESSED b
  | longReleased (hs : b.state = .LONG_PRESSED) :
      Transition b ts .RELEASED { b with pressCount := 0, state := .IDLE }


/-! ## A clock that runs ahead -/

/-- The reading, as an `unsigned long`, of a clock that runs `k` ms ahead of the one that
reads `t`. -/
def shiftTime (k t : Nat) : Nat := (t + k) % ULONG_MOD

/-- The event `e` as stamped by a clock that runs `k` ms ahead. -/
def ButtonEvent.shift (e : ButtonEvent) (k : Nat) : ButtonEvent :=
  ⟨shiftTime k e.timestamp, e.buttonPosition⟩

/-- The button `b` as it would be had every clock reading stored in it (`pressStart`,
`lastPressTime`, `lastDebounceTime` and the timestamps in the buffer) been taken from a
clock that runs `k` ms ahead. -/
def MultiPressButton.shift (b : MultiPressButton) (k : Nat) : MultiPressButton :=
  { b with
    pressStart := shiftTime k b.pressStart
    lastPressTime := shiftTime k b.lastPressTime
    lastDebounceTime := shiftTime k b.lastDebounceTime
    eventBuffer := b.eventBuffer.map fun e => e.shift k }


/-! ## Reachable states -/

/-- At most one of the three gesture flags is set. -/
def MultiPressButton.atMostOneGesture (b : MultiPressButton) : Prop :=
  ¬ (b.singlePressed = true ∧ b.doublePressed = true) ∧
  ¬ (b.singlePressed = true ∧ b.triplePressed = true) ∧
  ¬ (b.doublePressed = true ∧ b.triplePressed = true)

/-- The invariant of the state machine: the press count is 0 in Idle and LongPressed, at
least 1 in WaitingMultiPress and not negative in Pressing, the long-press flag is unset in
Pressing, and at most one gesture flag is set. -/
def MultiPressButton.invariant (b : MultiPressButton) : Prop :=
  (b.state = .IDLE ∨ b.state = .LONG_PRESSED → b.pressCount = 0) ∧
  (b.state = .WAITING_MULTIPRESS → 1 ≤ b.pressCount) ∧
  (b.state = .PRESSING → b.longPressed = false ∧ 0 ≤ b.pressCount) ∧
  b.atMostOneGesture

/-- The buttons that can be reached from a constructed one by calls of `_processEvent`,
`process` (when it returns), `setActions`, the four poll accessors and passes of the
sampler. -/
inductive Reachable : MultiPressButton → Prop
  | ctor (pin mode debounce_ms longPress_ms multi_press_window_ms : Nat)
      (mem : List ButtonEvent) :
      Reachable
        (MultiPressButton.ctor pin mode debounce_ms longPress_ms multi_press_window_ms mem)
  | processEvent {b : MultiPressButton} (e : ButtonEvent) :
      Reachable b → Reachable (b._processEvent e)
  | process {b r : MultiPressButton} (millis : Nat) :
      Reachable b → b.process millis = some r → Reachable r
  | setActions {b : MultiPressButton} (single doubl triple longPress : Bool) :
      Reachable b → Reachable (b.setActions single doubl triple longPress)
  | singlePress {b : MultiPressButton} : Reachable b → Reachable b.singlePress.2
  | doublePress {b : MultiPressButton} : Reachable b → Reachable b.doublePress.2
  | triplePress {b : MultiPressButton} : Reachable b → Reachable b.triplePress.2
  | longPress {b : MultiPressButton} : Reachable b → Reachable b.longPress.2
  | pollButton {b : MultiPressButton} (level now millis : Nat) :
      Reachable b → Reachable (b._pollButton level now millis)


/-! ## Runs of sampler passes -/

/-- The ticks at which the raw position differs from the raw position at the tick
before; `prev` is the raw position before the first tick. -/
def rawChanges : ButtonPosition → List Tick → List Tick
  | _, [] => []
  | prev, t :: ts =>
    if t.position = prev then rawChanges prev ts else t :: rawChanges t.position ts

/-- The number of press-release cycles in a sequence of positions: the entries Released
that directly follow an entry Pressed; `prev` is the position before the first. -/
def releases : ButtonPosition → List ButtonPosition → Nat
  | _, [] => 0
  | prev, p :: ps => (if prev = .PRESSED ∧ p = .RELEASED then 1 else 0) + releases p ps

/-- Each tick of `changes` comes at least `d` ms, measured on the 32-bit clock, after the
one before it; `last` is the clock reading the first is measured from. -/
def spacedFrom (d : Nat) : Nat → List Tick → Prop
  | _, [] => True
  | last, c :: cs => d ≤ usub c.now last ∧ spacedFrom d c.now cs

instance instDecidableSpacedFrom (d : Nat) :
    (last : Nat) → (cs : List Tick) → Decidable (spacedFrom d last cs)
  | _, [] => isTrue trivial
  | last, c :: cs =>
    @instDecidableAnd _ _ (Nat.decLe d (usub c.now last)) (instDecidableSpacedFrom d c.now cs)

/-- Consecutive ticks of `changes` are at least `d` ms apart on the 32-bit clock. -/
def spaced (d : Nat) : List Tick → Prop
  | [] => True
  | c :: cs => spacedFrom d c.now cs

instance instDecidableSpaced (d : Nat) : (cs : List Tick) → Decidable (spaced d cs)
  | [] => isTrue trivial
  | c :: cs => instDecidableSpacedFrom d c.now cs


/-- The accept branch of the sampler for the tick `t`: the event goes to `_addEvent` and
both sampler fields are updated. -/
def MultiPressButton.accept (b : MultiPressButton) (t : Tick) : MultiPressButton :=
  { b._addEvent t.position t.millis with
    lastDebounceTime := t.now
    lastButtonPosition := t.position }

/-- The accept branch taken for each tick of `ts` in turn. -/
def MultiPressButton.acceptAll (b : MultiPressButton) (ts : List Tick) : MultiPressButton :=
  ts.foldl MultiPressButton.accept b

/-- The ticks of a run at which the sampler takes the accept branch: those at which
`lastButtonPosition` changes. -/
def MultiPressButton.accepted (b : MultiPressButton) : List Tick → List Tick
  | [] => []
  | t :: ts =>
    if (b._pollButton t.level t.now t.millis).lastButtonPosition ≠ b.lastButtonPosition then
      t :: (b._pollButton t.level t.now t.millis).accepted ts
    else (b._pollButton t.level t.now t.millis).accepted ts

/-- The loop body of `_pollButtons` for one button, with a record of its call of
`_addEvent`: the second component holds the event the pass hands to `_addEvent` (nothing
when the pass does not reach that call), marked `true` when `_isBufferFull()` holds at the
call, so that `_addEvent` returns without storing the event. -/
def MultiPressButton._pollButtonLog (b : MultiPressButton) (level now millis : Nat) :
    MultiPressButton × List (ButtonEvent × Bool) :=
  let buttonPosition : ButtonPosition := if level = LOW then .PRESSED else .RELEASED
  if buttonPosition = b.lastButtonPosition then (b, [])
  else if usub now b.lastDebounceTime ≥ b.BUTTON_DEBOUNCE then
    let handed : ButtonEvent × Bool := (⟨millis, buttonPosition⟩, b._isBufferFull)
    let b : MultiPressButton := b._addEvent buttonPosition millis
    ({ b with lastDebounceTime := now, lastButtonPosition := buttonPosition }, [handed])
  else (b, [])

/-- A run of sampler passes over one button, with the record of the calls of `_addEvent`
made along the way, oldest first. -/
def MultiPressButton.pollTicksLog (b : MultiPressButton) :
    List Tick → MultiPressButton × List (ButtonEvent × Bool)
  | [] => (b, [])
  | t :: ts =>
    let s := b._pollButtonLog t.level t.now t.millis
    let r := s.1.pollTicksLog ts
    (r.1, s.2 ++ r.2)

/-- The sampler passes that the timer interrupt runs during one iteration of the loop of
`process`: `beforeTest` before the loop condition `readIndex != writeIndex` is evaluated,
`beforeAdvance` after that evaluation and before the assignment to `readIndex` that ends
the iteration. The loop body reads the slot at `readIndex`, which no sampler pass writes,
and `_processEvent` shares no field with the sampler, so where in that stretch a pass runs
makes no difference. -/
structure LoopInterrupts where
  beforeTest : List Tick
  beforeAdvance : List Tick
deriving DecidableEq, Repr

/-- The sampler passes that the timer interrupt runs inside one `process` call: `inLoop`
gives those of each evaluation of the loop condition in turn (no pass where the list has
no entry; the entry of the evaluation that ends the loop uses `beforeTest` only), and
`beforeCheck` those that run after the loop has ended and before `lastButtonPosition` is
read for the timeout check. A pass that runs after that read is a pass after the call. -/
structure Interrupts where
  inLoop : List LoopInterrupts
  beforeCheck : List Tick
deriving DecidableEq, Repr

/-- The number of sampler passes that run inside the loop. -/
def Interrupts.loopTicks (irq : Interrupts) : Nat :=
  (irq.inLoop.map fun l => l.beforeTest.length + l.beforeAdvance.length).sum

/-- What a stretch of the program leaves behind: the button, the events the sampler handed
to `_addEvent` (marked `true` when the queue was full and the event was not stored) and the
events passed to `_processEvent` (marked `true` for the synthetic timeout check of a
`process` call, `false` for an event taken from the queue), each oldest first. -/
structure Outcome where
  button : MultiPressButton
  handed : List (ButtonEvent × Bool)
  classified : List (ButtonEvent × Bool)

/-- The `while (readIndex != writeIndex)` loop of `process` with the sampler passes of
`irq` run at their places, for at most `fuel` iterations; `none` when the loop condition
still holds after `fuel` iterations. -/
def MultiPressButton.processLoopIrq :
    Nat → List LoopInterrupts → MultiPressButton → Option Outcome
  | 0, irq, b =>
    let s := b.pollTicksLog (irq.headD ⟨[], []⟩).beforeTest
    if s.1.readIndex ≠ s.1.writeIndex then none else some ⟨s.1, s.2, []⟩
  | fuel + 1, irq, b =>
    let s := b.pollTicksLog (irq.headD ⟨[], []⟩).beforeTest
    if s.1.readIndex ≠ s.1.writeIndex then
      let event : ButtonEvent :=
        ⟨(s.1.eventBuffer.getD s.1.readIndex default).timestamp,
         (s.1.eventBuffer.getD s.1.readIndex default).buttonPosition⟩
      let b : MultiPressButton := s.1._processEvent event
      let s2 := b.pollTicksLog (irq.headD ⟨[], []⟩).beforeAdvance
      let b : MultiPressButton :=
        { s2.1 with readIndex := (s2.1.readIndex + 1) &&& (RING_BUFFER_SIZE - 1) }
      (processLoopIrq fuel irq.tail b).map fun r =>
        ⟨r.button, s.2 ++ s2.2 ++ r.handed, (event, false) :: r.classified⟩
    else some ⟨s.1, s.2, []⟩

/-- The main-loop entry point `process` with the sampler passes of `irq` run inside the
call; `millis` is the clock reading taken for the timeout check. Every sampler pass in the
loop stores at most one event, so the loop of a well-formed queue ends within
`RING_BUFFER_SIZE` iterations and one more for each such pass. -/
def MultiPressButton.processIrq (b : MultiPressButton) (irq : Interrupts) (millis : Nat) :
    Option Outcome :=
  (b.processLoopIrq (RING_BUFFER_SIZE + irq.loopTicks) irq.inLoop).map fun r =>
    let s := r.button.pollTicksLog irq.beforeCheck
    let timeoutCheck : ButtonEvent := ⟨millis, s.1.lastButtonPosition⟩
    ⟨s.1._processEvent timeoutCheck, r.handed ++ s.2, r.classified ++ [(timeoutCheck, true)]⟩

/-- A step of the program as seen by one button: a sampler pass between two `process`
calls, or a `process` call with the sampler passes that run inside it. -/
inductive Step where
  | tick (t : Tick)
  | process (irq : Interrupts) (millis : Nat)
deriving DecidableEq, Repr

/-- No sampler pass runs between the end of the loop of a `process` call and its read of
`lastButtonPosition`. -/
def Step.checkUnpreempted : Step → Bool
  | .tick _ => true
  | .process irq _ => irq.beforeCheck.isEmpty

/-- A run of steps from the button `b`; `none` when the loop of a `process` call does not
end. -/
def MultiPressButton.run (b : MultiPressButton) : List Step → Option Outcome
  | [] => some ⟨b, [], []⟩
  | .tick t :: ss =>
    let s := b._pollButtonLog t.level t.now t.millis
    (s.1.run ss).map fun r => ⟨r.button, s.2 ++ r.handed, r.classified⟩
  | .process irq millis :: ss =>
    (b.processIrq irq millis).bind fun p =>
      (p.button.run ss).map fun r =>
        ⟨r.button, p.handed ++ r.handed, p.classified ++ r.classified⟩

/-- The queue indices are within the ring and the buffer has its 32 slots. -/
def MultiPressButton.queueOk (b : MultiPressButton) : Prop :=
  b.readIndex < 32 ∧ b.writeIndex < 32 ∧ b.eventBuffer.length = 32


/-- No synthetic event of the sequence shows a position other than that of the event
before it; `prev` is the position before the first event. -/
def noNewEdge : ButtonPosition → List (ButtonEvent × Bool) → Prop
  | _, [] => True
  | prev, (e, synthetic) :: rest =>
    (synthetic = true → e.buttonPosition = prev) ∧ noNewEdge e.buttonPosition rest

instance instDecidableNoNewEdge :
    (prev : ButtonPosition) → (l : List (ButtonEvent × Bool)) → Decidable (noNewEdge prev l)
  | _, [] => isTrue trivial
  | _, (e, _) :: rest =>
    @instDecidableAnd _ _ inferInstance (instDecidableNoNewEdge e.buttonPosition rest)


/-! ## Arithmetic of `usub` -/

theorem usub_eq_sub {a b : Nat} (hba : b ≤ a) (ha : a < ULONG_MOD) : usub a b = a - b := by
  simp only [usub, ULONG_MOD] at *
  norm_num at *
  omega

theorem usub_lt_mod (a b : Nat) : usub a b < ULONG_MOD := by
  simp only [usub, ULONG_MOD]
  exact Nat.mod_lt _ (by norm_num)

/-! ## One step of the state machine, case by case -/

theorem processEvent_idle_pressed (b : MultiPressButton) (ts : Nat)
    (hs : b.state = .IDLE) :
    b._processEvent ⟨ts, .PRESSED⟩ =
      { b with longPressed := false, pressStart := ts, state := .PRESSING } := by
  simp [MultiPressButton._processEvent, hs]

theorem processEvent_idle_released (b : MultiPressButton) (ts : Nat)
    (hs : b.state = .IDLE) :
    b._processEvent ⟨ts, .RELEASED⟩ = b := by
  simp [MultiPressButton._processEvent, hs]

theorem processEvent_waiting_pressed (b : MultiPressButton) (ts : Nat)
    (hs : b.state = .WAITING_MULTIPRESS) :
    b._processEvent ⟨ts, .PRESSED⟩ =
      { b with longPressed := false, pressStart := ts, state := .PRESSING } := by
  simp [MultiPressButton._processEvent, hs]

theorem processEvent_waiting_released_within (b : MultiPressButton) (ts : Nat)
    (hs : b.state = .WAITING_MULTIPRESS)
    (hw : usub ts b.lastPressTime ≤ b.MULTI_PRESS_WINDOW) :
    b._processEvent ⟨ts, .RELEASED⟩ = b := by
  simp [MultiPressButton._processEvent, hs, Nat.not_lt.mpr hw]

theorem processEvent_pressing_pressed_counted (b : MultiPressButton) (ts : Nat)
    (hs : b.state = .PRESSING) (hc : b.pressCount ≠ 0) :
    b._processEvent ⟨ts, .PRESSED⟩ = b := by
  simp [MultiPressButton._processEvent, hs, hc]

theorem processEvent_pressing_pressed_short (b : MultiPressButton) (ts : Nat)
    (hs : b.state = .PRESSING) (hd : usub ts b.pressStart < b.LONG_PRESS_DURATION) :
    b._processEvent ⟨ts, .PRESSED⟩ = b := by
  simp [MultiPressButton._processEvent, hs, Nat.not_le.mpr hd]

theorem processEvent_long_pressed_pressed (b : MultiPressButton) (ts : Nat)
    (hs : b.state = .LONG_PRESSED) :
    b._processEvent ⟨ts, .PRESSED⟩ = b := by
  simp [MultiPressButton._processEvent, hs]

theorem processEvent_long_pressed_released (b : MultiPressButton) (ts : Nat)
    (hs : b.state = .LONG_PRESSED) :
    b._processEvent ⟨ts, .RELEASED⟩ = { b with pressCount := 0, state := .IDLE } := by
  simp [MultiPressButton._processEvent, hs]

theorem processEvent_waiting_released_expired_single (b : MultiPressButton) (ts : Nat)
    (hs : b.state = .WAITING_MULTIPRESS)
    (hw : b.MULTI_PRESS_WINDOW < usub ts b.lastPressTime) (hc : b.pressCount = 1) :
    b._processEvent ⟨ts, .RELEASED⟩ =
      { b with
        singlePressed := !b.singleAction
        doublePressed := false
        triplePressed := false
        invoked := if b.singleAction then b.invoked ++ [.single] else b.invoked
        pressCount := 0
        state := .IDLE } := by
  cases hsa : b.singleAction <;>
    simp [MultiPressButton._processEvent, MultiPressButton.call, hs, hw, hc, hsa]

theorem processEvent_waiting_released_expired_double (b : MultiPressButton) (ts : Nat)
    (hs : b.state = .WAITING_MULTIPRESS)
    (hw : b.MULTI_PRESS_WINDOW < usub ts b.lastPressTime) (hc : b.pressCount = 2) :
    b._processEvent ⟨ts, .RELEASED⟩ =
      { b with
        singlePressed := false
        doublePressed := !b.doubleAction
        triplePressed := false
        invoked := if b.doubleAction then b.invoked ++ [.doubl] else b.invoked
        pressCount := 0
        state := .IDLE } := by
  cases hda : b.doubleAction <;>
    simp [MultiPressButton._processEvent, MultiPressButton.call, hs, hw, hc, hda]

theorem processEvent_waiting_released_expired_triple (b : MultiPressButton) (ts : Nat)
    (hs : b.state = .WAITING_MULTIPRESS)
    (hw : b.MULTI_PRESS_WINDOW < usub ts b.lastPressTime) (hc : 3 ≤ b.pressCount) :
    b._processEvent ⟨ts, .RELEASED⟩ =
      { b with
        singlePressed := false
        doublePressed := false
        triplePressed := !b.tripleAction
        invoked := if b.tripleAction then b.invoked ++ [.triple] else b.invoked
        pressCount := 0
        state := .IDLE } := by
  cases hta : b.tripleAction <;>
    simp [MultiPressButton._processEvent, MultiPressButton.call, hs, hw, hc, hta]

theorem processEvent_waiting_released_expired_none (b : MultiPressButton) (ts : Nat)
    (hs : b.state = .WAITING_MULTIPRESS)
    (hw : b.MULTI_PRESS_WINDOW < usub ts b.lastPressTime) (hc : b.pressCount ≤ 0) :
    b._processEvent ⟨ts, .RELEASED⟩ = { b with pressCount := 0, state := .IDLE } := by
  have h3 : ¬ (3 ≤ b.pressCount) := by omega
  have h2 : ¬ (b.pressCount = 2) := by omega
  have h1 : ¬ (b.pressCount = 1) := by omega
  simp [MultiPressButton._processEvent, hs, hw, h1, h2, h3]

theorem processEvent_pressing_pressed_long (b : MultiPressButton) (ts : Nat)
    (hs : b.state = .PRESSING) (hl : b.longPressed = false) (hc : b.pressCount = 0)
    (hd : b.LONG_PRESS_DURATION ≤ usub ts b.pressStart) :
    b._processEvent ⟨ts, .PRESSED⟩ =
      { b with
        longPressed := !b.longPressAction
        invoked := if b.longPressAction then b.invoked ++ [.longPress] else b.invoked
        state := .LONG_PRESSED } := by
  cases hla : b.longPressAction <;>
    simp [MultiPressButton._processEvent, MultiPressButton.call, hs, hl, hc, hd, hla]

theorem processEvent_pressing_pressed_flagged (b : MultiPressButton) (ts : Nat)
    (hs : b.state = .PRESSING) (hl : b.longPressed = true) :
    b._processEvent ⟨ts, .PRESSED⟩ = b := by
  simp [MultiPressButton._processEvent, hs, hl]

theorem processEvent_pressing_released_wait (b : MultiPressButton) (ts : Nat)
    (hs : b.state = .PRESSING)
    (h1 : ¬ (b.pressCount + 1 = 1 ∧ b.singleAction = true ∧ b.doubleAction = false ∧
      b.tripleAction = false))
    (h2 : ¬ (b.pressCount + 1 = 2 ∧ b.doubleAction = true ∧ b.tripleAction = false))
    (h3 : ¬ (b.pressCount + 1 ≥ 3 ∧ b.tripleAction = true)) :
    b._processEvent ⟨ts, .RELEASED⟩ =
      { b with
        pressCount := b.pressCount + 1
        lastPressTime := ts
        state := .WAITING_MULTIPRESS } := by
  simp only [MultiPressButton._processEvent, hs]
  rw [if_neg (by decide), if_neg h1, if_neg h2, if_neg h3]

theorem processEvent_pressing_released_triple (b : MultiPressButton) (ts : Nat)
    (hs : b.state = .PRESSING) (hta : b.tripleAction = true) (hc : 2 ≤ b.pressCount) :
    b._processEvent ⟨ts, .RELEASED⟩ =
      { b with
        lastPressTime := ts
        invoked := b.invoked ++ [.triple]
        pressCount := 0
        state := .IDLE } := by
  have h1 : ¬ (b.pressCount + 1 = 1) := by omega
  have h2 : ¬ (b.pressCount + 1 = 2) := by omega
  have h3 : 3 ≤ b.pressCount + 1 := by omega
  simp [MultiPressButton._processEvent, MultiPressButton.call, hs, hta, h1, h2, h3]

/-- With an empty queue the drain loop of `process` does nothing. -/
theorem processLoop_empty (b : MultiPressButton) (fuel : Nat)
    (hq : b.readIndex = b.writeIndex) : b.processLoop fuel = some b := by
  cases fuel <;> simp [MultiPressButton.processLoop, hq]

/-- With an empty queue `process` is one timeout check. -/
theorem process_empty (b : MultiPressButton) (t : Nat) (hq : b.readIndex = b.writeIndex) :
    b.process t = some (b._processEvent ⟨t, b.lastButtonPosition⟩) := by
  simp [MultiPressButton.process, processLoop_empty b _ hq]

/-- A `process` call on an empty queue while the button is up and idle changes nothing. -/
theorem process_idle_released (b : MultiPressButton) (t : Nat)
    (hq : b.readIndex = b.writeIndex) (hp : b.lastButtonPosition = .RELEASED)
    (hs : b.state = .IDLE) : b.process t = some b := by
  rw [process_empty b t hq, hp, processEvent_idle_released b t hs]

/-- A `process` call on an empty queue before the window has run out changes nothing. -/
theorem process_waiting_within (b : MultiPressButton) (t : Nat)
    (hq : b.readIndex = b.writeIndex) (hp : b.lastButtonPosition = .RELEASED)
    (hs : b.state = .WAITING_MULTIPRESS)
    (hw : usub t b.lastPressTime ≤ b.MULTI_PRESS_WINDOW) : b.process t = some b := by
  rw [process_empty b t hq, hp, processEvent_waiting_released_within b t hs hw]

/-- A `process` call on an empty queue is one timeout check at the released position
when the button is up. -/
theorem process_empty_released (b : MultiPressButton) (t : Nat)
    (hq : b.readIndex = b.writeIndex) (hp : b.lastButtonPosition = .RELEASED) :
    b.process t = some (b._processEvent ⟨t, .RELEASED⟩) := by
  rw [process_empty b t hq, hp]

/-! ## The poll accessors -/

/-- C1: each of the four poll accessors returns the current value of its own flag and
leaves the button equal to the old one with that flag false (so no other field
changes); a second call directly afterwards returns `false` and changes nothing. -/
theorem C1_poll_accessor_read_and_clear (b : MultiPressButton) :
    (b.singlePress.1 = b.singlePressed ∧
      b.singlePress.2 = { b with singlePressed := false } ∧
      b.singlePress.2.singlePress = (false, b.singlePress.2)) ∧
    (b.doublePress.1 = b.doublePressed ∧
      b.doublePress.2 = { b with doublePressed := false } ∧
      b.doublePress.2.doublePress = (false, b.doublePress.2)) ∧
    (b.triplePress.1 = b.triplePressed ∧
      b.triplePress.2 = { b with triplePressed := false } ∧
      b.triplePress.2.triplePress = (false, b.triplePress.2)) ∧
    (b.longPress.1 = b.longPressed ∧
      b.longPress.2 = { b with longPressed := false } ∧
      b.longPress.2.longPress = (false, b.longPress.2)) := by
  simp [MultiPressButton.singlePress, MultiPressButton.doublePress,
    MultiPressButton.triplePress, MultiPressButton.longPress]

/-! ## The worked examples -/

/-- C2, as stated, fails at the boundary: with debounce 50, long press 1000 and window
1000, after Pressed@0 and Released@100 a `process()` call at clock 1100 measures
`1100 - 100 = 1000`, which is not greater than the window, so the single-press flag is
not latched and `singlePress()` returns `false`. -/
theorem C2_not_latched_at_1100 :
    ((((MultiPressButton.ctor 2 2 50 1000 1000 []).classify
        [⟨0, .PRESSED⟩, ⟨100, .RELEASED⟩]).process 1100).map
      fun b => (b.state, b.singlePress.1)) = some (.WAITING_MULTIPRESS, false) := by
  decide

/-- C2, amended: with debounce 50, long press 1000, window 1000 and no handlers, after
Pressed@0 and Released@100 have been classified, a `process()` call at any clock
reading `t` with `1100 < t` (`t` a 32-bit value) returns and latches the single-press
flag: `singlePress()` then returns `true`, a second call returns `false`, and
`doublePress()` and `triplePress()` return `false`; no handler has been called. -/
theorem C2_single_latched_after_window (pin mode : Nat) (mem : List ButtonEvent) (t : Nat)
    (ht : 1100 < t) (hmod : t < ULONG_MOD) :
    ∃ b : MultiPressButton,
      ((MultiPressButton.ctor pin mode 50 1000 1000 mem).classify
        [⟨0, .PRESSED⟩, ⟨100, .RELEASED⟩]).process t = some b ∧
      b.singlePress.1 = true ∧ b.singlePress.2.singlePress.1 = false ∧
      b.doublePress.1 = false ∧ b.triplePress.1 = false ∧
      b.invoked = [] ∧ b.pressCount = 0 ∧ b.state = .IDLE := by
  have hu : usub t 100 = t - 100 := usub_eq_sub (by omega) hmod
  have hgt : 1000 < usub t 100 := by omega
  refine ⟨_, process_empty _ _ (by rfl), ?_⟩
  simp [MultiPressButton.classify, MultiPressButton._processEvent, MultiPressButton.ctor,
    MultiPressButton.singlePress, MultiPressButton.doublePress,
    MultiPressButton.triplePress, hgt]

theorem C2_single_latched_after_window_witness :
    ∃ b : MultiPressButton,
      ((MultiPressButton.ctor 2 2 50 1000 1000 []).classify
        [⟨0, .PRESSED⟩, ⟨100, .RELEASED⟩]).process 1101 = some b ∧
      b.singlePress.1 = true ∧ b.singlePress.2.singlePress.1 = false ∧
      b.doublePress.1 = false ∧ b.triplePress.1 = false ∧
      b.invoked = [] ∧ b.pressCount = 0 ∧ b.state = .IDLE :=
  C2_single_latched_after_window 2 2 [] 1101 (by decide) (by decide)

/-- C3, as stated, fails: in poll mode, after Pressed@0, Released@100, Pressed@300 and
Released@400 the button is still waiting for the window to run out, and a `process()`
call at clock 500 (well before expiry) leaves the double-press flag unset, so
`doublePress()` returns `false`. -/
theorem C3_double_not_latched_before_expiry :
    ((((MultiPressButton.ctor 2 2 50 1000 1000 []).classify
        [⟨0, .PRESSED⟩, ⟨100, .RELEASED⟩, ⟨300, .PRESSED⟩, ⟨400, .RELEASED⟩]).process 500).map
      fun b => (b.state, b.pressCount, b.doublePress.1)) =
      some (.WAITING_MULTIPRESS, 2, false) := by
  decide

/-- C3, amended: with debounce 50, long press 1000, window 1000 and no triple handler,
after Pressed@0, Released@100, Pressed@300, Released@400 have been classified, a
`process()` call at a clock `t` with `t - 400 ≤ 1000` (before expiry) leaves all of
`singlePress()`, `doublePress()` and `triplePress()` returning `false`, whichever of the
single, double and long handlers are registered; with no single and no double handler
either, a `process()` call at a clock `t` with `t - 400 > 1000` latches the double flag:
`doublePress()` returns `true` while `singlePress()` and `triplePress()` return `false`. -/
theorem C3_double_latched_at_expiry_only (pin mode : Nat) (mem : List ButtonEvent)
    (single doubl longPress : Bool) (t : Nat) :
    (usub t 400 ≤ 1000 →
      ∃ b : MultiPressButton,
        (((MultiPressButton.ctor pin mode 50 1000 1000 mem).setActions single doubl false
            longPress).classify
          [⟨0, .PRESSED⟩, ⟨100, .RELEASED⟩, ⟨300, .PRESSED⟩, ⟨400, .RELEASED⟩]).process t
          = some b ∧
        b.singlePress.1 = false ∧ b.doublePress.1 = false ∧ b.triplePress.1 = false) ∧
    (1000 < usub t 400 →
      ∃ b : MultiPressButton,
        (((MultiPressButton.ctor pin mode 50 1000 1000 mem).setActions false false false
            longPress).classify
          [⟨0, .PRESSED⟩, ⟨100, .RELEASED⟩, ⟨300, .PRESSED⟩, ⟨400, .RELEASED⟩]).process t
          = some b ∧
        b.singlePress.1 = false ∧ b.doublePress.1 = true ∧ b.triplePress.1 = false) := by
  constructor
  · intro hw
    cases single <;> cases doubl
    · exact ⟨_, process_waiting_within _ t rfl rfl rfl hw, rfl, rfl, rfl⟩
    · exact ⟨_, process_idle_released _ t rfl rfl rfl, rfl, rfl, rfl⟩
    · exact ⟨_, process_idle_released _ t rfl rfl rfl, rfl, rfl, rfl⟩
    · exact ⟨_, process_idle_released _ t rfl rfl rfl, rfl, rfl, rfl⟩
  · intro hw
    refine ⟨_, process_empty_released _ t rfl rfl, ?_⟩
    rw [processEvent_waiting_released_expired_double _ t rfl hw rfl]
    exact ⟨rfl, rfl, rfl⟩

theorem C3_double_latched_at_expiry_only_witness :
    (∃ b : MultiPressButton,
        (((MultiPressButton.ctor 2 2 50 1000 1000 []).setActions false false false
            false).classify
          [⟨0, .PRESSED⟩, ⟨100, .RELEASED⟩, ⟨300, .PRESSED⟩, ⟨400, .RELEASED⟩]).process 500
          = some b ∧
        b.singlePress.1 = false ∧ b.doublePress.1 = false ∧ b.triplePress.1 = false) ∧
    (∃ b : MultiPressButton,
        (((MultiPressButton.ctor 2 2 50 1000 1000 []).setActions false false false
            false).classify
          [⟨0, .PRESSED⟩, ⟨100, .RELEASED⟩, ⟨300, .PRESSED⟩, ⟨400, .RELEASED⟩]).process 1401
          = some b ∧
        b.singlePress.1 = false ∧ b.doublePress.1 = true ∧ b.triplePress.1 = false) :=
  ⟨(C3_double_latched_at_expiry_only 2 2 [] false false false 500).1 (by decide),
   (C3_double_latched_at_expiry_only 2 2 [] false false false 1401).2 (by decide)⟩

/-! ## Immediate dispatch on release -/

/-- C6: with a single handler registered and neither a double nor a triple handler, a
Released event processed in state Pressing with `pressCount = 0` calls the single
handler exactly once during that event, leaves `pressCount = 0` and the state Idle, and
apart from recording the release time changes nothing else: no poll flag is set. -/
theorem C6_immediate_single (b : MultiPressButton) (ts : Nat)
    (hsa : b.singleAction = true) (hda : b.doubleAction = false)
    (hta : b.tripleAction = false) (hs : b.state = .PRESSING) (hc : b.pressCount = 0) :
    b._processEvent ⟨ts, .RELEASED⟩ =
      { b with
        lastPressTime := ts
        invoked := b.invoked ++ [.single]
        pressCount := 0
        state := .IDLE } := by
  simp [MultiPressButton._processEvent, MultiPressButton.call, hs, hc, hsa, hda, hta]

theorem C6_immediate_single_witness :
    (((MultiPressButton.ctor 2 2 50 1000 1000 []).setActions true false false false)._processEvent
        ⟨0, .PRESSED⟩)._processEvent ⟨100, .RELEASED⟩ =
      { (((MultiPressButton.ctor 2 2 50 1000 1000 []).setActions true false false
            false)._processEvent ⟨0, .PRESSED⟩) with
        lastPressTime := 100
        invoked := [] ++ [.single]
        pressCount := 0
        state := .IDLE } :=
  C6_immediate_single
    (((MultiPressButton.ctor 2 2 50 1000 1000 []).setActions true false false false)._processEvent
      ⟨0, .PRESSED⟩) 100 (by decide) (by decide) (by decide) (by decide) (by decide)

/-- C7: with a double handler registered and no triple handler, with or without a single
handler, the Released event that raises `pressCount` from 1 to 2 calls the double handler
exactly once during that event and no other handler, leaves `pressCount = 0` and the
state Idle, and apart from recording the release time changes nothing else: no poll flag
is set. -/
theorem C7_immediate_double (b : MultiPressButton) (ts : Nat)
    (hda : b.doubleAction = true) (hta : b.tripleAction = false)
    (hs : b.state = .PRESSING) (hc : b.pressCount = 1) :
    b._processEvent ⟨ts, .RELEASED⟩ =
      { b with
        lastPressTime := ts
        invoked := b.invoked ++ [.doubl]
        pressCount := 0
        state := .IDLE } := by
  simp [MultiPressButton._processEvent, MultiPressButton.call, hs, hc, hda, hta]

theorem C7_immediate_double_witness :
    (((MultiPressButton.ctor 2 2 50 1000 1000 []).setActions false true false false).classify
        [⟨0, .PRESSED⟩, ⟨100, .RELEASED⟩, ⟨300, .PRESSED⟩])._processEvent ⟨400, .RELEASED⟩ =
      { (((MultiPressButton.ctor 2 2 50 1000 1000 []).setActions false true false
            false).classify [⟨0, .PRESSED⟩, ⟨100, .RELEASED⟩, ⟨300, .PRESSED⟩]) with
        lastPressTime := 400
        invoked := [] ++ [.doubl]
        pressCount := 0
        state := .IDLE } :=
  C7_immediate_double
    (((MultiPressButton.ctor 2 2 50 1000 1000 []).setActions false true false false).classify
      [⟨0, .PRESSED⟩, ⟨100, .RELEASED⟩, ⟨300, .PRESSED⟩]) 400
    (by decide) (by decide) (by decide) (by decide)

/-! ## Window expiry -/

/-- C8: for a Released-position event at time `ts` processed in state WaitingMultiPress:
when `ts - lastPressTime ≤ MULTI_PRESS_WINDOW` the event changes nothing; when the
difference exceeds the window, `pressCount` becomes 0 and the state Idle, and the gesture
chosen by `pressCount` (1 single, 2 double, at least 3 triple) is delivered: its handler,
if registered, is called exactly once and its poll flag is then false, otherwise its poll
flag is set; the two other gesture flags are false afterwards; no other field changes. -/
theorem C8_window_expiry (b : MultiPressButton) (ts : Nat)
    (hs : b.state = .WAITING_MULTIPRESS) :
    (usub ts b.lastPressTime ≤ b.MULTI_PRESS_WINDOW → b._processEvent ⟨ts, .RELEASED⟩ = b) ∧
    (b.MULTI_PRESS_WINDOW < usub ts b.lastPressTime →
      (b._processEvent ⟨ts, .RELEASED⟩).pressCount = 0 ∧
      (b._processEvent ⟨ts, .RELEASED⟩).state = .IDLE ∧
      (b.pressCount = 1 →
        b._processEvent ⟨ts, .RELEASED⟩ =
          { b with
            singlePressed := !b.singleAction
            doublePressed := false
            triplePressed := false
            invoked := if b.singleAction then b.invoked ++ [.single] else b.invoked
            pressCount := 0
            state := .IDLE }) ∧
      (b.pressCount = 2 →
        b._processEvent ⟨ts, .RELEASED⟩ =
          { b with
            singlePressed := false
            doublePressed := !b.doubleAction
            triplePressed := false
            invoked := if b.doubleAction then b.invoked ++ [.doubl] else b.invoked
            pressCount := 0
            state := .IDLE }) ∧
      (3 ≤ b.pressCount →
        b._processEvent ⟨ts, .RELEASED⟩ =
          { b with
            singlePressed := false
            doublePressed := false
            triplePressed := !b.tripleAction
            invoked := if b.tripleAction then b.invoked ++ [.triple] else b.invoked
            pressCount := 0
            state := .IDLE })) := by
  refine ⟨processEvent_waiting_released_within b ts hs, fun hw => ?_⟩
  refine ⟨?_, ?_, processEvent_waiting_released_expired_single b ts hs hw,
    processEvent_waiting_released_expired_double b ts hs hw,
    processEvent_waiting_released_expired_triple b ts hs hw⟩
  · rcases le_or_lt b.pressCount 0 with h0 | h0
    · rw [processEvent_waiting_released_expired_none b ts hs hw h0]
    · rcases (by omega : b.pressCount = 1 ∨ b.pressCount = 2 ∨ 3 ≤ b.pressCount) with
        h | h | h
      · rw [processEvent_waiting_released_expired_single b ts hs hw h]
      · rw [processEvent_waiting_released_expired_double b ts hs hw h]
      · rw [processEvent_waiting_released_expired_triple b ts hs hw h]
  · rcases le_or_lt b.pressCount 0 with h0 | h0
    · rw [processEvent_waiting_released_expired_none b ts hs hw h0]
    · rcases (by omega : b.pressCount = 1 ∨ b.pressCount = 2 ∨ 3 ≤ b.pressCount) with
        h | h | h
      · rw [processEvent_waiting_released_expired_single b ts hs hw h]
      · rw [processEvent_waiting_released_expired_double b ts hs hw h]
      · rw [processEvent_waiting_released_expired_triple b ts hs hw h]

theorem C8_window_expiry_witness :
    ((MultiPressButton.ctor 2 2 50 1000 1000 []).classify
        [⟨0, .PRESSED⟩, ⟨100, .RELEASED⟩])._processEvent ⟨500, .RELEASED⟩ =
      (MultiPressButton.ctor 2 2 50 1000 1000 []).classify [⟨0, .PRESSED⟩, ⟨100, .RELEASED⟩] ∧
    ((MultiPressButton.ctor 2 2 50 1000 1000 []).classify
        [⟨0, .PRESSED⟩, ⟨100, .RELEASED⟩])._processEvent ⟨1101, .RELEASED⟩ =
      { (MultiPressButton.ctor 2 2 50 1000 1000 []).classify
          [⟨0, .PRESSED⟩, ⟨100, .RELEASED⟩] with
        singlePressed := true
        doublePressed := false
        triplePressed := false
        invoked := []
        pressCount := 0
        state := .IDLE } :=
  ⟨(C8_window_expiry
      ((MultiPressButton.ctor 2 2 50 1000 1000 []).classify [⟨0, .PRESSED⟩, ⟨100, .RELEASED⟩])
      500 (by decide)).1 (by decide),
   ((C8_window_expiry
      ((MultiPressButton.ctor 2 2 50 1000 1000 []).classify [⟨0, .PRESSED⟩, ⟨100, .RELEASED⟩])
      1101 (by decide)).2 (by decide)).2.2.1 (by decide)⟩

/-- C9 fails on the code: in poll mode the queued events Pressed@0, Released@100,
Pressed@5000, Released@5100, drained by one `process()` call at clock 7000, are reported
as a double press although the second press came 4900 ms after the first release, far
outside the 1000 ms window: the Pressed event moves the state to Pressing before the
expiry test reads it, so the test is skipped and the stale count is kept. -/
theorem C9_late_press_reported_as_double :
    ((stalledLoopQueue.process 7000).map fun b =>
        (b.singlePress.1, b.doublePress.1, b.triplePress.1, b.pressCount, b.state)) =
      some (false, true, false, 0, .IDLE) ∧
    ((MultiPressButton.ctor 2 2 50 1000 1000 []).classify
        [⟨0, .PRESSED⟩, ⟨100, .RELEASED⟩, ⟨5000, .PRESSED⟩]).pressCount = 1 := by
  decide

/-! ## Long press while held -/

/-- Once in LongPressed, `process` calls on an empty queue with the button still down
change nothing. -/
theorem processAll_long_pressed (b : MultiPressButton) (ts : List Nat)
    (hq : b.readIndex = b.writeIndex) (hp : b.lastButtonPosition = .PRESSED)
    (hs : b.state = .LONG_PRESSED) : b.processAll ts = some b := by
  induction ts with
  | nil => rfl
  | cons t ts ih =>
    simp only [MultiPressButton.processAll, process_empty b t hq, hp,
      processEvent_long_pressed_pressed b t hs, Option.some_bind]
    exact ih

/-- While Pressing a first click with the button down, `process` calls on an empty queue
call the long-press handler once, at the first clock reading that is far enough from
`pressStart`, if it is registered, and nothing else. -/
theorem processAll_pressing_held (b : MultiPressButton) (ts : List Nat)
    (hq : b.readIndex = b.writeIndex) (hp : b.lastButtonPosition = .PRESSED)
    (hs : b.state = .PRESSING) (hl : b.longPressed = false) (hc : b.pressCount = 0) :
    ∃ r : MultiPressButton, b.processAll ts = some r ∧
      r.invoked = b.invoked ++
        (if b.longPressAction = true ∧ ∃ t ∈ ts, b.LONG_PRESS_DURATION ≤ usub t b.pressStart
          then [.longPress] else []) := by
  induction ts with
  | nil => exact ⟨b, rfl, by simp⟩
  | cons t ts ih =>
    simp only [MultiPressButton.processAll, process_empty b t hq, hp, Option.some_bind]
    by_cases hd : b.LONG_PRESS_DURATION ≤ usub t b.pressStart
    · rw [processEvent_pressing_pressed_long b t hs hl hc hd]
      refine ⟨_, processAll_long_pressed _ ts hq hp rfl, ?_⟩
      cases hla : b.longPressAction <;> simp [hd]
    · rw [processEvent_pressing_pressed_short b t hs (Nat.lt_of_not_le hd)]
      obtain ⟨r, hr, hinv⟩ := ih
      refine ⟨r, hr, ?_⟩
      rw [hinv]
      simp [hd]

/-- C5: after a Pressed event at `t0` has been classified from Idle with `pressCount = 0`,
and while the button stays down with an empty queue, every run of `process()` calls
returns, and after the first `k` calls of the run (for every `k`) the handlers called are
those called before plus the long-press handler exactly once if it is registered and one
of these `k` clock readings `t` has `t - t0 ≥ LONG_PRESS_DURATION`, and nothing more
otherwise: the handler fires at the first such call, only through the synthetic timeout
event, and never again. -/
theorem C5_long_press_fires_once (b : MultiPressButton) (t0 : Nat) (ts : List Nat) (k : Nat)
    (hs : b.state = .IDLE) (hc : b.pressCount = 0)
    (hq : b.readIndex = b.writeIndex) (hp : b.lastButtonPosition = .PRESSED) :
    ∃ r : MultiPressButton,
      (b._processEvent ⟨t0, .PRESSED⟩).processAll (ts.take k) = some r ∧
      r.invoked = b.invoked ++
        (if b.longPressAction = true ∧ ∃ t ∈ ts.take k, b.LONG_PRESS_DURATION ≤ usub t t0
          then [.longPress] else []) := by
  rw [processEvent_idle_pressed b t0 hs]
  exact processAll_pressing_held _ (ts.take k) hq hp rfl rfl hc

theorem C5_long_press_fires_once_witness :
    ∃ r : MultiPressButton,
      (({ (MultiPressButton.ctor 2 2 50 1000 1000 []).setActions false false false true with
          lastButtonPosition := .PRESSED } : MultiPressButton)._processEvent
        ⟨0, .PRESSED⟩).processAll ([400, 1000, 1600, 2200].take 3) = some r ∧
      r.invoked = [.longPress] :=
  (C5_long_press_fires_once
    ({ (MultiPressButton.ctor 2 2 50 1000 1000 []).setActions false false false true with
        lastButtonPosition := .PRESSED } : MultiPressButton)
    0 [400, 1000, 1600, 2200] 3 (by decide) (by decide) (by decide) (by decide)).imp
    fun _ h => ⟨h.1, h.2.trans (by decide)⟩

/-! ## Runs of events -/

theorem classify_append (b : MultiPressButton) (l1 l2 : List ButtonEvent) :
    b.classify (l1 ++ l2) = (b.classify l1).classify l2 := by
  simp [MultiPressButton.classify, List.foldl_append]

theorem classify_cons (b : MultiPressButton) (e : ButtonEvent) (l : List ButtonEvent) :
    b.classify (e :: l) = (b._processEvent e).classify l := rfl

theorem classify_nil (b : MultiPressButton) : b.classify [] = b := rfl

/-- Events that each leave the state unchanged leave it unchanged together. -/
theorem classify_fixed (b : MultiPressButton) (l : List ButtonEvent)
    (h : ∀ e ∈ l, b._processEvent e = b) : b.classify l = b := by
  induction l with
  | nil => rfl
  | cons e l ih =>
    rw [classify_cons, h e (List.mem_cons_self e l)]
    exact ih fun x hx => h x (List.mem_cons_of_mem e hx)

theorem classify_checks_idle (b : MultiPressButton) (ts : List Nat)
    (hs : b.state = .IDLE) : b.classify (checks .RELEASED ts) = b := by
  apply classify_fixed
  intro e he
  obtain ⟨t, -, rfl⟩ := List.mem_map.mp he
  exact processEvent_idle_released b t hs

theorem classify_checks_waiting (b : MultiPressButton) (ts : List Nat)
    (hs : b.state = .WAITING_MULTIPRESS)
    (hw : ∀ t ∈ ts, usub t b.lastPressTime ≤ b.MULTI_PRESS_WINDOW) :
    b.classify (checks .RELEASED ts) = b := by
  apply classify_fixed
  intro e he
  obtain ⟨t, ht, rfl⟩ := List.mem_map.mp he
  exact processEvent_waiting_released_within b t hs (hw t ht)

theorem classify_checks_pressing_counted (b : MultiPressButton) (ts : List Nat)
    (hs : b.state = .PRESSING) (hc : b.pressCount ≠ 0) :
    b.classify (checks .PRESSED ts) = b := by
  apply classify_fixed
  intro e he
  obtain ⟨t, -, rfl⟩ := List.mem_map.mp he
  exact processEvent_pressing_pressed_counted b t hs hc

theorem classify_checks_pressing_short (b : MultiPressButton) (ts : List Nat)
    (hs : b.state = .PRESSING)
    (hd : ∀ t ∈ ts, usub t b.pressStart < b.LONG_PRESS_DURATION) :
    b.classify (checks .PRESSED ts) = b := by
  apply classify_fixed
  intro e he
  obtain ⟨t, ht, rfl⟩ := List.mem_map.mp he
  exact processEvent_pressing_pressed_short b t hs (hd t ht)

/-- The events of a click, classified: the press, the checks while down, the release,
the checks while up. -/
theorem classify_click (b : MultiPressButton) (c : Click) :
    b.classify c.events =
      ((((b._processEvent ⟨c.pressAt, .PRESSED⟩).classify
        (checks .PRESSED c.holdChecks))._processEvent ⟨c.releaseAt, .RELEASED⟩).classify
        (checks .RELEASED c.waitChecks)) := by
  simp [Click.events, MultiPressButton.classify, List.foldl_append]

/-- A press from Idle or WaitingMultiPress enters Pressing. -/
theorem processEvent_between_pressed (b : MultiPressButton) (ts : Nat)
    (hst : b.state = .IDLE ∨ b.state = .WAITING_MULTIPRESS) :
    b._processEvent ⟨ts, .PRESSED⟩ =
      { b with longPressed := false, pressStart := ts, state := .PRESSING } := by
  rcases hst with hs | hs
  · exact processEvent_idle_pressed b ts hs
  · exact processEvent_waiting_pressed b ts hs

/-- The timeout checks made while the button is down, just after the press: they change
nothing when a click has been counted already, or when none of them sees the button held
for the long-press duration. -/
theorem classify_checks_pressed_after_press (b : MultiPressButton) (p : Nat) (ts : List Nat)
    (hhold : b.pressCount = 0 → ∀ t ∈ ts, usub t p < b.LONG_PRESS_DURATION) :
    ({ b with longPressed := false, pressStart := p, state := .PRESSING } :
        MultiPressButton).classify (checks .PRESSED ts) =
      { b with longPressed := false, pressStart := p, state := .PRESSING } := by
  by_cases hc : b.pressCount = 0
  · exact classify_checks_pressing_short _ _ rfl (hhold hc)
  · exact classify_checks_pressing_counted _ _ rfl hc

/-- A click that is counted and not dispatched on release: no timeout check sees a first
click held for the long-press duration, no immediate-dispatch shortcut applies, and the
checks after the release come before the window has run out. -/
theorem classify_click_counted (b : MultiPressButton) (c : Click)
    (hst : b.state = .IDLE ∨ b.state = .WAITING_MULTIPRESS)
    (hhold : b.pressCount = 0 →
      ∀ t ∈ c.holdChecks, usub t c.pressAt < b.LONG_PRESS_DURATION)
    (h1 : ¬ (b.pressCount + 1 = 1 ∧ b.singleAction = true ∧ b.doubleAction = false ∧
      b.tripleAction = false))
    (h2 : ¬ (b.pressCount + 1 = 2 ∧ b.doubleAction = true ∧ b.tripleAction = false))
    (h3 : ¬ (b.pressCount + 1 ≥ 3 ∧ b.tripleAction = true))
    (hwait : ∀ t ∈ c.waitChecks, usub t c.releaseAt ≤ b.MULTI_PRESS_WINDOW) :
    b.classify c.events =
      { b with
        longPressed := false
        pressStart := c.pressAt
        pressCount := b.pressCount + 1
        lastPressTime := c.releaseAt
        state := .WAITING_MULTIPRESS } := by
  rw [classify_click, processEvent_between_pressed b _ hst]
  have hrel := processEvent_pressing_released_wait
    ({ b with longPressed := false, pressStart := c.pressAt, state := .PRESSING } :
      MultiPressButton) c.releaseAt rfl h1 h2 h3
  rw [classify_checks_pressed_after_press b c.pressAt c.holdChecks hhold, hrel]
  exact classify_checks_waiting _ _ rfl hwait

/-- A third or later click with a triple handler registered: the release calls the
handler at once, and the checks that follow find the button Idle. -/
theorem classify_click_triple (b : MultiPressButton) (c : Click)
    (hst : b.state = .IDLE ∨ b.state = .WAITING_MULTIPRESS)
    (hta : b.tripleAction = true) (hc : 2 ≤ b.pressCount) :
    b.classify c.events =
      { b with
        longPressed := false
        pressStart := c.pressAt
        lastPressTime := c.releaseAt
        invoked := b.invoked ++ [.triple]
        pressCount := 0
        state := .IDLE } := by
  rw [classify_click, processEvent_between_pressed b _ hst]
  have hc0 : b.pressCount = 0 → ∀ t ∈ c.holdChecks, usub t c.pressAt < b.LONG_PRESS_DURATION :=
    fun h => by omega
  have hrel := processEvent_pressing_released_triple
    ({ b with longPressed := false, pressStart := c.pressAt, state := .PRESSING } :
      MultiPressButton) c.releaseAt rfl hta hc
  rw [classify_checks_pressed_after_press b c.pressAt c.holdChecks hc0, hrel]
  exact classify_checks_idle _ _ rfl

/-! ## Three clicks with only a triple handler -/

theorem alongRun_append (P : MultiPressButton → Prop) (b : MultiPressButton)
    (l1 l2 : List ButtonEvent) :
    AlongRun P b (l1 ++ l2) ↔ AlongRun P b l1 ∧ AlongRun P (b.classify l1) l2 := by
  induction l1 generalizing b with
  | nil =>
    constructor
    · intro h
      refine ⟨?_, h⟩
      cases l2 with
      | nil => exact h
      | cons e es => exact h.1
    · exact fun h => h.2
  | cons e es ih =>
    have hstep := ih (b._processEvent e)
    constructor
    · rintro ⟨h1, h2⟩
      exact ⟨⟨h1, (hstep.mp h2).1⟩, (hstep.mp h2).2⟩
    · rintro ⟨⟨h1, h2⟩, h3⟩
      exact ⟨h1, hstep.mpr ⟨h2, h3⟩⟩

/-- Events that each leave the state unchanged keep a property that holds in it. -/
theorem alongRun_fixed (P : MultiPressButton → Prop) (b : MultiPressButton)
    (l : List ButtonEvent) (h : ∀ e ∈ l, b._processEvent e = b) (hP : P b) :
    AlongRun P b l := by
  induction l with
  | nil => exact hP
  | cons e l ih =>
    refine ⟨hP, ?_⟩
    rw [h e (List.mem_cons_self e l)]
    exact ih fun x hx => h x (List.mem_cons_of_mem e hx)

/-- A property that holds along a run holds after each of its prefixes. -/
theorem alongRun_take (P : MultiPressButton → Prop) (b : MultiPressButton)
    (l : List ButtonEvent) (h : AlongRun P b l) (k : Nat) : P (b.classify (l.take k)) := by
  induction l generalizing b k with
  | nil => simpa [MultiPressButton.classify] using h
  | cons e l ih =>
    cases k with
    | zero => exact h.1
    | succ k => exact ih _ h.2 k

theorem alongRun_checks_idle (P : MultiPressButton → Prop) (b : MultiPressButton)
    (ts : List Nat) (hs : b.state = .IDLE) (hP : P b) :
    AlongRun P b (checks .RELEASED ts) := by
  apply alongRun_fixed P b _ _ hP
  intro e he
  obtain ⟨t, -, rfl⟩ := List.mem_map.mp he
  exact processEvent_idle_released b t hs

theorem alongRun_checks_waiting (P : MultiPressButton → Prop) (b : MultiPressButton)
    (ts : List Nat) (hs : b.state = .WAITING_MULTIPRESS)
    (hw : ∀ t ∈ ts, usub t b.lastPressTime ≤ b.MULTI_PRESS_WINDOW) (hP : P b) :
    AlongRun P b (checks .RELEASED ts) := by
  apply alongRun_fixed P b _ _ hP
  intro e he
  obtain ⟨t, ht, rfl⟩ := List.mem_map.mp he
  exact processEvent_waiting_released_within b t hs (hw t ht)

/-- The timeout checks made while the button is down, just after the press, keep a
property that holds then (same conditions as `classify_checks_pressed_after_press`). -/
theorem alongRun_checks_pressed_after_press (P : MultiPressButton → Prop)
    (b : MultiPressButton) (p : Nat) (ts : List Nat)
    (hhold : b.pressCount = 0 → ∀ t ∈ ts, usub t p < b.LONG_PRESS_DURATION)
    (hP : P { b with longPressed := false, pressStart := p, state := .PRESSING }) :
    AlongRun P { b with longPressed := false, pressStart := p, state := .PRESSING }
      (checks .PRESSED ts) := by
  apply alongRun_fixed P _ _ _ hP
  intro e he
  obtain ⟨t, ht, rfl⟩ := List.mem_map.mp he
  by_cases hc : b.pressCount = 0
  · exact processEvent_pressing_pressed_short _ t rfl (hhold hc t ht)
  · exact processEvent_pressing_pressed_counted _ t rfl hc

/-- In poll mode no flag is set at any point of a counted click. -/
theorem alongRun_click_counted (b : MultiPressButton) (c : Click)
    (hst : b.state = .IDLE ∨ b.state = .WAITING_MULTIPRESS)
    (hsa : b.singleAction = false) (hda : b.doubleAction = false)
    (hta : b.tripleAction = false) (hflag : b.noFlag)
    (hhold : b.pressCount = 0 →
      ∀ t ∈ c.holdChecks, usub t c.pressAt < b.LONG_PRESS_DURATION)
    (hwait : ∀ t ∈ c.waitChecks, usub t c.releaseAt ≤ b.MULTI_PRESS_WINDOW) :
    AlongRun MultiPressButton.noFlag b c.events := by
  obtain ⟨f1, f2, f3, f4⟩ := hflag
  have hrel := processEvent_pressing_released_wait
    ({ b with longPressed := false, pressStart := c.pressAt, state := .PRESSING } :
      MultiPressButton) c.releaseAt rfl (by simp [hsa]) (by simp [hda]) (by simp [hta])
  rw [Click.events, alongRun_append, classify_cons, processEvent_between_pressed b _ hst,
    classify_checks_pressed_after_press b c.pressAt c.holdChecks hhold]
  refine ⟨⟨⟨f1, f2, f3, f4⟩, ?_⟩, ⟨f1, f2, f3, rfl⟩, ?_⟩
  · rw [processEvent_between_pressed b _ hst]
    exact alongRun_checks_pressed_after_press _ b c.pressAt c.holdChecks hhold
      ⟨f1, f2, f3, rfl⟩
  · rw [hrel]
    exact alongRun_checks_waiting _ _ _ rfl hwait ⟨f1, f2, f3, rfl⟩

/-- In poll mode a non-empty run of counted clicks ends in WaitingMultiPress with one
more press counted per click, and sets no flag on the way. -/
theorem classify_clicks_counted (b : MultiPressButton) (c : Click) (cs : List Click)
    (hst : b.state = .IDLE ∨ b.state = .WAITING_MULTIPRESS)
    (hsa : b.singleAction = false) (hda : b.doubleAction = false)
    (hta : b.tripleAction = false) (hflag : b.noFlag) (hc : 0 ≤ b.pressCount)
    (hhold : b.pressCount = 0 →
      ∀ t ∈ c.holdChecks, usub t c.pressAt < b.LONG_PRESS_DURATION)
    (hwait : ∀ x ∈ c :: cs, ∀ t ∈ x.waitChecks, usub t x.releaseAt ≤ b.MULTI_PRESS_WINDOW) :
    b.classify (clicksEvents (c :: cs)) =
      { b with
        longPressed := false
        pressStart := lastPress c.pressAt cs
        pressCount := b.pressCount + ((cs.length + 1 : Nat) : Int)
        lastPressTime := lastRelease c.releaseAt cs
        state := .WAITING_MULTIPRESS } ∧
    AlongRun MultiPressButton.noFlag b (clicksEvents (c :: cs)) := by
  induction cs generalizing b c with
  | nil =>
    have hw := hwait c (List.mem_cons_self c [])
    have h1 := classify_click_counted b c hst hhold (by simp [hsa]) (by simp [hda])
      (by simp [hta]) hw
    have h2 := alongRun_click_counted b c hst hsa hda hta hflag hhold hw
    simp only [clicksEvents, List.append_nil, lastPress, lastRelease, List.length_nil]
    exact ⟨by rw [h1]; simp, h2⟩
  | cons d ds ih =>
    have hw := hwait c (List.mem_cons_self c _)
    have h1 := classify_click_counted b c hst hhold (by simp [hsa]) (by simp [hda])
      (by simp [hta]) hw
    have h2 := alongRun_click_counted b c hst hsa hda hta hflag hhold hw
    obtain ⟨f1, f2, f3, -⟩ := hflag
    have hrest := ih
      ({ b with
          longPressed := false
          pressStart := c.pressAt
          pressCount := b.pressCount + 1
          lastPressTime := c.releaseAt
          state := .WAITING_MULTIPRESS } : MultiPressButton) d (Or.inr rfl) hsa hda hta
      ⟨f1, f2, f3, rfl⟩ (by show (0 : Int) ≤ b.pressCount + 1; omega)
      (fun h => by
        have h0 : b.pressCount + 1 = 0 := h
        omega)
      (fun x hx => hwait x (List.mem_cons_of_mem c hx))
    rw [clicksEvents, classify_append, alongRun_append, h1]
    refine ⟨?_, h2, hrest.2⟩
    rw [hrest.1]
    simp only [lastPress, lastRelease, List.length_cons, MultiPressButton.mk.injEq, true_and,
      and_true]
    push_cast
    omega

/-! ## Poll mode: n clicks, then the window runs out -/

theorem processEvent_pressing_pressed_not (b : MultiPressButton) (ts : Nat)
    (hs : b.state = .PRESSING)
    (hn : ¬ (b.longPressed = false ∧ b.pressCount = 0 ∧
      b.LONG_PRESS_DURATION ≤ usub ts b.pressStart)) :
    b._processEvent ⟨ts, .PRESSED⟩ = b := by
  simp only [MultiPressButton._processEvent, hs]
  rw [if_pos trivial, if_neg hn]

theorem processEvent_pressing_released_single (b : MultiPressButton) (ts : Nat)
    (hs : b.state = .PRESSING) (hc : b.pressCount = 0)
    (hsa : b.singleAction = true) (hda : b.doubleAction = false)
    (hta : b.tripleAction = false) :
    b._processEvent ⟨ts, .RELEASED⟩ =
      { b with
        lastPressTime := ts
        invoked := b.invoked ++ [.single]
        pressCount := 0
        state := .IDLE } := by
  simp [MultiPressButton._processEvent, MultiPressButton.call, hs, hc, hsa, hda, hta]

theorem processEvent_pressing_released_double (b : MultiPressButton) (ts : Nat)
    (hs : b.state = .PRESSING) (hc : b.pressCount = 1)
    (hda : b.doubleAction = true) (hta : b.tripleAction = false) :
    b._processEvent ⟨ts, .RELEASED⟩ =
      { b with
        lastPressTime := ts
        invoked := b.invoked ++ [.doubl]
        pressCount := 0
        state := .IDLE } := by
  simp [MultiPressButton._processEvent, MultiPressButton.call, hs, hc, hda, hta]

/-- The result of `_processEvent` is the result of the transition whose conditions
hold. -/
theorem Transition.result_eq {b : MultiPressButton} {ts : Nat} {pos : ButtonPosition}
    {r : MultiPressButton} (h : Transition b ts pos r) : b._processEvent ⟨ts, pos⟩ = r := by
  cases h with
  | press hs => exact processEvent_between_pressed b ts hs
  | idleReleased hs => exact processEvent_idle_released b ts hs
  | waitingWithin hs hw => exact processEvent_waiting_released_within b ts hs hw
  | expiredSingle hs hw hc => exact processEvent_waiting_released_expired_single b ts hs hw hc
  | expiredDouble hs hw hc => exact processEvent_waiting_released_expired_double b ts hs hw hc
  | expiredTriple hs hw hc => exact processEvent_waiting_released_expired_triple b ts hs hw hc
  | expiredNone hs hw hc => exact processEvent_waiting_released_expired_none b ts hs hw hc
  | longPress hs hl hc hd => exact processEvent_pressing_pressed_long b ts hs hl hc hd
  | held hs hn => exact processEvent_pressing_pressed_not b ts hs hn
  | releaseSingle hs hc hsa hda hta =>
    exact processEvent_pressing_released_single b ts hs hc hsa hda hta
  | releaseDouble hs hc hda hta => exact processEvent_pressing_released_double b ts hs hc hda hta
  | releaseTriple hs hc hta => exact processEvent_pressing_released_triple b ts hs hta hc
  | releaseCounted hs h1 h2 h3 => exact processEvent_pressing_released_wait b ts hs h1 h2 h3
  | longHeld hs => exact processEvent_long_pressed_pressed b ts hs
  | longReleased hs => exact processEvent_long_pressed_released b ts hs

/-- Some transition applies to every button and every event. -/
theorem transition_exists (b : MultiPressButton) (ts : Nat) (pos : ButtonPosition) :
    ∃ r, Transition b ts pos r := by
  cases pos <;> cases hs : b.state
  · exact ⟨_, .press (Or.inl hs)⟩
  · by_cases hn : b.longPressed = false ∧ b.pressCount = 0 ∧
        b.LONG_PRESS_DURATION ≤ usub ts b.pressStart
    · exact ⟨_, .longPress hs hn.1 hn.2.1 hn.2.2⟩
    · exact ⟨_, .held hs hn⟩
  · exact ⟨_, .longHeld hs⟩
  · exact ⟨_, .press (Or.inr hs)⟩
  · exact ⟨_, .idleReleased hs⟩
  · by_cases h1 : b.pressCount + 1 = 1 ∧ b.singleAction = true ∧ b.doubleAction = false ∧
        b.tripleAction = false
    · exact ⟨_, .releaseSingle hs (by omega) h1.2.1 h1.2.2.1 h1.2.2.2⟩
    · by_cases h2 : b.pressCount + 1 = 2 ∧ b.doubleAction = true ∧ b.tripleAction = false
      · exact ⟨_, .releaseDouble hs (by omega) h2.2.1 h2.2.2⟩
      · by_cases h3 : b.pressCount + 1 ≥ 3 ∧ b.tripleAction = true
        · exact ⟨_, .releaseTriple hs (by omega) h3.2⟩
        · exact ⟨_, .releaseCounted hs h1 h2 h3⟩
  · exact ⟨_, .longReleased hs⟩
  · by_cases hw : b.MULTI_PRESS_WINDOW < usub ts b.lastPressTime
    · rcases le_or_lt b.pressCount 0 with h0 | h0
      · exact ⟨_, .expiredNone hs hw h0⟩
      · rcases (by omega : b.pressCount = 1 ∨ b.pressCount = 2 ∨ 3 ≤ b.pressCount) with
          h | h | h
        · exact ⟨_, .expiredSingle hs hw h⟩
        · exact ⟨_, .expiredDouble hs hw h⟩
        · exact ⟨_, .expiredTriple hs hw h⟩
    · exact ⟨_, .waitingWithin hs (Nat.le_of_not_lt hw)⟩

/-- The transition `_processEvent` takes. -/
theorem transition (b : MultiPressButton) (ts : Nat) (pos : ButtonPosition) :
    Transition b ts pos (b._processEvent ⟨ts, pos⟩) := by
  obtain ⟨r, hr⟩ := transition_exists b ts pos
  rw [hr.result_eq]
  exact hr

/-! ## Fields the state machine never touches -/

theorem Transition.withReadIndex {b : MultiPressButton} {ts : Nat} {pos : ButtonPosition}
    {r : MultiPressButton} (h : Transition b ts pos r) (x : Nat) :
    Transition (b.withReadIndex x) ts pos (r.withReadIndex x) := by
  cases h with
  | press hs => exact .press hs
  | idleReleased hs => exact .idleReleased hs
  | waitingWithin hs hw => exact .waitingWithin hs hw
  | expiredSingle hs hw hc => exact .expiredSingle hs hw hc
  | expiredDouble hs hw hc => exact .expiredDouble hs hw hc
  | expiredTriple hs hw hc => exact .expiredTriple hs hw hc
  | expiredNone hs hw hc => exact .expiredNone hs hw hc
  | longPress hs hl hc hd => exact .longPress hs hl hc hd
  | held hs hn => exact .held hs hn
  | releaseSingle hs hc hsa hda hta => exact .releaseSingle hs hc hsa hda hta
  | releaseDouble hs hc hda hta => exact .releaseDouble hs hc hda hta
  | releaseTriple hs hc hta => exact .releaseTriple hs hc hta
  | releaseCounted hs h1 h2 h3 => exact .releaseCounted hs h1 h2 h3
  | longHeld hs => exact .longHeld hs
  | longReleased hs => exact .longReleased hs

theorem processEvent_withReadIndex (b : MultiPressButton) (e : ButtonEvent) (x : Nat) :
    (b.withReadIndex x)._processEvent e = (b._processEvent e).withReadIndex x :=
  ((transition b e.timestamp e.buttonPosition).withReadIndex x).result_eq

theorem Transition.frame {b : MultiPressButton} {ts : Nat} {pos : ButtonPosition}
    {r : MultiPressButton} (h : Transition b ts pos r) :
    r.eventBuffer = b.eventBuffer ∧ r.writeIndex = b.writeIndex ∧
    r.readIndex = b.readIndex ∧ r.lastButtonPosition = b.lastButtonPosition ∧
    r.lastDebounceTime = b.lastDebounceTime ∧ r.BUTTON_DEBOUNCE = b.BUTTON_DEBOUNCE ∧
    r.LONG_PRESS_DURATION = b.LONG_PRESS_DURATION ∧
    r.MULTI_PRESS_WINDOW = b.MULTI_PRESS_WINDOW ∧
    r.singleAction = b.singleAction ∧ r.doubleAction = b.doubleAction ∧
    r.tripleAction = b.tripleAction ∧ r.longPressAction = b.longPressAction := by
  cases h <;> exact ⟨rfl, rfl, rfl, rfl, rfl, rfl, rfl, rfl, rfl, rfl, rfl, rfl⟩

/-- The call `_processEvent` leaves the queue, the sampler fields, the configuration and
the handlers alone. -/
theorem processEvent_frame (b : MultiPressButton) (e : ButtonEvent) :
    (b._processEvent e).eventBuffer = b.eventBuffer ∧
    (b._processEvent e).writeIndex = b.writeIndex ∧
    (b._processEvent e).readIndex = b.readIndex ∧
    (b._processEvent e).lastButtonPosition = b.lastButtonPosition ∧
    (b._processEvent e).lastDebounceTime = b.lastDebounceTime ∧
    (b._processEvent e).BUTTON_DEBOUNCE = b.BUTTON_DEBOUNCE ∧
    (b._processEvent e).LONG_PRESS_DURATION = b.LONG_PRESS_DURATION ∧
    (b._processEvent e).MULTI_PRESS_WINDOW = b.MULTI_PRESS_WINDOW ∧
    (b._processEvent e).singleAction = b.singleAction ∧
    (b._processEvent e).doubleAction = b.doubleAction ∧
    (b._processEvent e).tripleAction = b.tripleAction ∧
    (b._processEvent e).longPressAction = b.longPressAction :=
  (transition b e.timestamp e.buttonPosition).frame

theorem classify_withReadIndex (b : MultiPressButton) (l : List ButtonEvent) (x : Nat) :
    (b.withReadIndex x).classify l = (b.classify l).withReadIndex x := by
  induction l generalizing b with
  | nil => rfl
  | cons e l ih => rw [classify_cons, classify_cons, processEvent_withReadIndex, ih]

/-- Classifying events leaves the queue, the sampler fields, the configuration and the
handlers alone. -/
theorem classify_frame (b : MultiPressButton) (l : List ButtonEvent) :
    (b.classify l).eventBuffer = b.eventBuffer ∧
    (b.classify l).writeIndex = b.writeIndex ∧
    (b.classify l).readIndex = b.readIndex ∧
    (b.classify l).lastButtonPosition = b.lastButtonPosition ∧
    (b.classify l).lastDebounceTime = b.lastDebounceTime ∧
    (b.classify l).BUTTON_DEBOUNCE = b.BUTTON_DEBOUNCE ∧
    (b.classify l).LONG_PRESS_DURATION = b.LONG_PRESS_DURATION ∧
    (b.classify l).MULTI_PRESS_WINDOW = b.MULTI_PRESS_WINDOW ∧
    (b.classify l).singleAction = b.singleAction ∧
    (b.classify l).doubleAction = b.doubleAction ∧
    (b.classify l).tripleAction = b.tripleAction ∧
    (b.classify l).longPressAction = b.longPressAction := by
  induction l generalizing b with
  | nil => exact ⟨rfl, rfl, rfl, rfl, rfl, rfl, rfl, rfl, rfl, rfl, rfl, rfl⟩
  | cons e l ih =>
    obtain ⟨h1, h2, h3, h4, h5, h6, h7, h8, h9, h10, h11, h12⟩ := ih (b._processEvent e)
    obtain ⟨g1, g2, g3, g4, g5, g6, g7, g8, g9, g10, g11, g12⟩ := processEvent_frame b e
    rw [classify_cons]
    exact ⟨h1.trans g1, h2.trans g2, h3.trans g3, h4.trans g4, h5.trans g5, h6.trans g6,
      h7.trans g7, h8.trans g8, h9.trans g9, h10.trans g10, h11.trans g11, h12.trans g12⟩

/-! ## The ring buffer -/

/-- The index mask of the ring buffer is reduction modulo 32. -/
theorem and_ring_mask (x : Nat) : x &&& (RING_BUFFER_SIZE - 1) = x % 32 :=
  Nat.and_pow_two_sub_one_eq_mod x 5

theorem ringSlice_length (buf : List ButtonEvent) (r w : Nat) :
    (ringSlice buf r w).length = (w + 32 - r) % 32 := by
  simp [ringSlice, RING_BUFFER_SIZE]

theorem ringSlice_empty (buf : List ButtonEvent) (r : Nat) : ringSlice buf r r = [] := by
  have h0 : (r + 32 - r) % 32 = 0 := by omega
  simp [ringSlice, RING_BUFFER_SIZE, h0]

/-- The oldest slot of a non-empty slice is the one at the read index. -/
theorem ringSlice_cons (buf : List ButtonEvent) (r w : Nat) (hr : r < 32) (hw : w < 32)
    (hne : r ≠ w) :
    ringSlice buf r w = buf.getD r default :: ringSlice buf ((r + 1) % 32) w := by
  have hn : (w + 32 - r) % 32 = (w + 32 - (r + 1) % 32) % 32 + 1 := by omega
  simp only [ringSlice, RING_BUFFER_SIZE, hn, List.range_succ_eq_map, List.map_cons,
    List.map_map]
  congr 1
  · congr 1
    omega
  · apply List.map_congr_left
    intro i _
    simp only [Function.comp]
    congr 1
    omega

/-- Writing at the write index and advancing it appends to the slice, unless that would
make the write index meet the read index. -/
theorem ringSlice_push (buf : List ButtonEvent) (r w : Nat) (e : ButtonEvent) (hr : r < 32)
    (hw : w < 32) (hlen : buf.length = 32) (hfull : (w + 1) % 32 ≠ r) :
    ringSlice (buf.set w e) r ((w + 1) % 32) = ringSlice buf r w ++ [e] := by
  have hn : ((w + 1) % 32 + 32 - r) % 32 = (w + 32 - r) % 32 + 1 := by omega
  simp only [ringSlice, RING_BUFFER_SIZE, hn, List.range_succ, List.map_append, List.map_cons,
    List.map_nil]
  congr 1
  · apply List.map_congr_left
    intro i hi
    have hi32 : i < (w + 32 - r) % 32 := List.mem_range.mp hi
    have hne : w ≠ (r + i) % 32 := by omega
    simp [List.getD_eq_getElem?_getD, List.getElem?_set, hne]
  · have hw2 : (r + (w + 32 - r) % 32) % 32 = w := by omega
    simp [List.getD_eq_getElem?_getD, List.getElem?_set, hw2, hlen, hw]

theorem isBufferFull_iff (b : MultiPressButton) :
    b._isBufferFull = true ↔ (b.writeIndex + 1) % 32 = b.readIndex := by
  simp [MultiPressButton._isBufferFull, and_ring_mask]

/-- On a full queue `_addEvent` changes nothing. -/
theorem addEvent_full (b : MultiPressButton) (p : ButtonPosition) (t : Nat)
    (hfull : (b.writeIndex + 1) % 32 = b.readIndex) : b._addEvent p t = b := by
  simp [MultiPressButton._addEvent, (isBufferFull_iff b).mpr hfull]

/-- On a queue that is not full `_addEvent` stores the event at the write index and
advances that index round the ring; nothing else changes. -/
theorem addEvent_not_full (b : MultiPressButton) (p : ButtonPosition) (t : Nat)
    (hfull : (b.writeIndex + 1) % 32 ≠ b.readIndex) :
    b._addEvent p t =
      { b with
        eventBuffer := b.eventBuffer.set b.writeIndex ⟨t, p⟩
        writeIndex := (b.writeIndex + 1) % 32 } := by
  have hf : b._isBufferFull = false := by
    cases h : b._isBufferFull
    · rfl
    · exact absurd ((isBufferFull_iff b).mp h) hfull
  simp [MultiPressButton._addEvent, hf, and_ring_mask]

/-- On a well-formed queue that is not full `_addEvent` appends its event to the queued
events. -/
theorem addEvent_queued (b : MultiPressButton) (p : ButtonPosition) (t : Nat)
    (hr : b.readIndex < 32) (hw : b.writeIndex < 32) (hlen : b.eventBuffer.length = 32)
    (hfull : (b.writeIndex + 1) % 32 ≠ b.readIndex) :
    (b._addEvent p t).queued = b.queued ++ [⟨t, p⟩] := by
  rw [addEvent_not_full b p t hfull]
  exact ringSlice_push b.eventBuffer b.readIndex b.writeIndex ⟨t, p⟩ hr hw hlen hfull

/-- The queue is full exactly when it holds 31 events. -/
theorem full_iff_queued_length (b : MultiPressButton) (hr : b.readIndex < 32)
    (hw : b.writeIndex < 32) :
    (b.writeIndex + 1) % 32 = b.readIndex ↔ b.queued.length = 31 := by
  rw [MultiPressButton.queued, ringSlice_length]
  omega

theorem addEvent_wf (b : MultiPressButton) (p : ButtonPosition) (t : Nat)
    (hw : b.writeIndex < 32) :
    (b._addEvent p t).readIndex = b.readIndex ∧ (b._addEvent p t).writeIndex < 32 ∧
    (b._addEvent p t).eventBuffer.length = b.eventBuffer.length := by
  by_cases hfull : (b.writeIndex + 1) % 32 = b.readIndex
  · rw [addEvent_full b p t hfull]
    exact ⟨rfl, hw, rfl⟩
  · rw [addEvent_not_full b p t hfull]
    exact ⟨rfl, Nat.mod_lt _ (by norm_num), by simp⟩

/-- After a run of `_addEvent` calls the queue holds what it held before followed by as
many of the pushed events, oldest first, as fit in its 31 places. -/
theorem addEvents_queued (b : MultiPressButton) (pushes : List ButtonEvent)
    (hr : b.readIndex < 32) (hw : b.writeIndex < 32) (hlen : b.eventBuffer.length = 32) :
    (b.addEvents pushes).queued = b.queued ++ pushes.take (31 - b.queued.length) ∧
    (b.addEvents pushes).readIndex = b.readIndex ∧ (b.addEvents pushes).writeIndex < 32 ∧
    (b.addEvents pushes).eventBuffer.length = 32 := by
  induction pushes generalizing b with
  | nil => exact ⟨by simp [MultiPressButton.addEvents], rfl, hw, hlen⟩
  | cons e es ih =>
    obtain ⟨w1, w2, w3⟩ := addEvent_wf b e.buttonPosition e.timestamp hw
    have hstep := ih (b._addEvent e.buttonPosition e.timestamp) (w1 ▸ hr) w2 (w3.trans hlen)
    have hfold : b.addEvents (e :: es) =
        (b._addEvent e.buttonPosition e.timestamp).addEvents es := rfl
    rw [hfold]
    refine ⟨?_, hstep.2.1.trans w1, hstep.2.2.1, hstep.2.2.2⟩
    rw [hstep.1]
    by_cases hfull : (b.writeIndex + 1) % 32 = b.readIndex
    · have h31 := (full_iff_queued_length b hr hw).mp hfull
      rw [addEvent_full b _ _ hfull, h31]
      simp
    · have h31 : b.queued.length ≠ 31 := fun h =>
        hfull ((full_iff_queued_length b hr hw).mpr h)
      have hle : b.queued.length < 32 := by
        rw [MultiPressButton.queued, ringSlice_length]
        exact Nat.mod_lt _ (by norm_num)
      rw [addEvent_queued b _ _ hr hw hlen hfull]
      have hk : 31 - b.queued.length = (31 - (b.queued.length + 1)) + 1 := by omega
      rw [hk, List.take_succ_cons, List.length_append, List.length_singleton,
        List.append_assoc]
      rfl

/-- The drain loop of `process` on a well-formed queue ends, classifies the queued events
oldest first, and leaves the read index at the write index. -/
theorem processLoop_queued (fuel : Nat) (b : MultiPressButton) (hr : b.readIndex < 32)
    (hw : b.writeIndex < 32) (hfuel : (b.writeIndex + 32 - b.readIndex) % 32 ≤ fuel) :
    b.processLoop fuel = some ((b.classify b.queued).withReadIndex b.writeIndex) := by
  induction fuel generalizing b with
  | zero =>
    have heq : b.readIndex = b.writeIndex := by omega
    simp only [MultiPressButton.processLoop, MultiPressButton.queued, heq, ringSlice_empty,
      ne_eq, not_true_eq_false, if_false]
    rw [← heq]
    rfl
  | succ fuel ih =>
    by_cases heq : b.readIndex = b.writeIndex
    · simp only [MultiPressButton.processLoop, MultiPressButton.queued, heq, ringSlice_empty,
        ne_eq, not_true_eq_false, if_false]
      rw [← heq]
      rfl
    · obtain ⟨g1, g2, g3, -⟩ := processEvent_frame b (b.eventBuffer.getD b.readIndex default)
      have hstep : b.processLoop (fuel + 1) =
          ((b._processEvent (b.eventBuffer.getD b.readIndex default)).withReadIndex
            ((b.readIndex + 1) % 32)).processLoop fuel := by
        simp only [MultiPressButton.processLoop, ne_eq, heq, not_false_eq_true, if_true,
          and_ring_mask, g3]
        rfl
      have hq : b.queued = b.eventBuffer.getD b.readIndex default ::
          ringSlice b.eventBuffer ((b.readIndex + 1) % 32) b.writeIndex :=
        ringSlice_cons b.eventBuffer b.readIndex b.writeIndex hr hw heq
      rw [hstep, ih _ (Nat.mod_lt _ (by norm_num)) (by
        show (b._processEvent _).writeIndex < 32
        rw [g2]; exact hw) (by
        show ((b._processEvent _).writeIndex + 32 - (b.readIndex + 1) % 32) % 32 ≤ fuel
        rw [g2]; omega)]
      have hq2 : ((b._processEvent (b.eventBuffer.getD b.readIndex default)).withReadIndex
          ((b.readIndex + 1) % 32)).queued =
          ringSlice b.eventBuffer ((b.readIndex + 1) % 32) b.writeIndex := by
        show ringSlice (b._processEvent _).eventBuffer _ (b._processEvent _).writeIndex = _
        rw [g1, g2]
        rfl
      rw [hq2, classify_withReadIndex, hq, classify_cons]
      show some (((b._processEvent _).classify _).withReadIndex (b._processEvent _).writeIndex)
        = _
      rw [g2]

/-- One `process` call on a well-formed queue: it returns; the queued events are
classified oldest first, then the timeout check; the read index ends at the write
index. -/
theorem process_queued (b : MultiPressButton) (t : Nat) (hr : b.readIndex < 32)
    (hw : b.writeIndex < 32) :
    b.process t = some ((b.classify (b.queued ++
      [⟨t, b.lastButtonPosition⟩])).withReadIndex b.writeIndex) := by
  have hloop := processLoop_queued RING_BUFFER_SIZE b hr hw
    (Nat.le_of_lt (Nat.mod_lt _ (by norm_num)))
  obtain ⟨-, -, -, g4, -⟩ := classify_frame b b.queued
  simp only [MultiPressButton.process, hloop, Option.map_some']
  rw [classify_append, classify_cons, classify_nil, ← processEvent_withReadIndex]
  have hp : ((b.classify b.queued).withReadIndex b.writeIndex).lastButtonPosition =
      b.lastButtonPosition := g4
  rw [hp]

/-! ## Queue overflow and first-in first-out delivery -/

/-- C11: `_addEvent` on a full queue (`(writeIndex + 1) mod 32 = readIndex`) returns the
button unchanged: indices and every buffered event stay as they were. Hence, for every
list `pushes` of `n` events pushed by `_addEvent` onto an empty, well-formed queue with no
drain in between: both indices are still below 32, the read index has not moved, the
queue holds exactly the first `min n 31` events pushed, in order, and a following
`process()` returns, classifies exactly those events (then the timeout check) and leaves
the queue empty. -/
theorem C11_overflow_drops_newest (b : MultiPressButton) (pushes : List ButtonEvent) (t : Nat)
    (hr : b.readIndex < 32) (hempty : b.writeIndex = b.readIndex)
    (hlen : b.eventBuffer.length = 32) :
    (∀ (f : MultiPressButton) (p : ButtonPosition) (m : Nat),
      (f.writeIndex + 1) % 32 = f.readIndex → f._addEvent p m = f) ∧
    (b.addEvents pushes).readIndex = b.readIndex ∧
    (b.addEvents pushes).writeIndex < 32 ∧
    (b.addEvents pushes).queued = pushes.take 31 ∧
    (b.addEvents pushes).queued.length = min pushes.length 31 ∧
    ∃ r : MultiPressButton,
      (b.addEvents pushes).process t = some r ∧
      r = { (b.addEvents pushes).classify
              (pushes.take 31 ++ [⟨t, (b.addEvents pushes).lastButtonPosition⟩]) with
            readIndex := (b.addEvents pushes).writeIndex } ∧
      r.readIndex = r.writeIndex ∧ r.queued = [] := by
  have hw : b.writeIndex < 32 := hempty ▸ hr
  obtain ⟨h1, h2, h3, -⟩ := addEvents_queued b pushes hr hw hlen
  have hq0 : b.queued = [] := by
    rw [MultiPressButton.queued, hempty]
    exact ringSlice_empty _ _
  have hq : (b.addEvents pushes).queued = pushes.take 31 := by
    rw [h1, hq0]
    simp
  obtain ⟨-, g2, -⟩ := classify_frame (b.addEvents pushes)
    (List.take 31 pushes ++ [⟨t, (b.addEvents pushes).lastButtonPosition⟩])
  refine ⟨fun f p m hf => addEvent_full f p m hf, h2, h3, hq, ?_, _, ?_, rfl, ?_, ?_⟩
  · rw [hq, List.length_take]
    exact Nat.min_comm _ _
  · rw [process_queued _ t (h2 ▸ hr) h3, hq]
    rfl
  · exact g2.symm
  · show ringSlice _ (b.addEvents pushes).writeIndex _ = []
    rw [g2]
    exact ringSlice_empty _ _

/-- C12: one `process()` call on a queue whose indices are in range returns; the button
that results is the one obtained by applying `_processEvent` to the queued events (the
slots from `readIndex` up to `writeIndex`, round the ring, oldest first), each once, and
then once to the synthetic event `{millis(), lastButtonPosition}`, with `readIndex` moved
to `writeIndex`; `writeIndex` and the buffer are unchanged, so the synthetic event is not
stored, and the queue is empty afterwards. -/
theorem C12_process_fifo (b : MultiPressButton) (t : Nat)
    (hr : b.readIndex < 32) (hw : b.writeIndex < 32) :
    ∃ r : MultiPressButton,
      b.process t = some r ∧
      r = { b.classify (b.queued ++ [⟨t, b.lastButtonPosition⟩]) with
            readIndex := b.writeIndex } ∧
      r.readIndex = b.writeIndex ∧ r.writeIndex = b.writeIndex ∧
      r.eventBuffer = b.eventBuffer ∧ r.queued = [] := by
  obtain ⟨g1, g2, -⟩ := classify_frame b (b.queued ++ [⟨t, b.lastButtonPosition⟩])
  have g3 : ((b.classify (b.queued ++ [⟨t, b.lastButtonPosition⟩])).withReadIndex
      b.writeIndex).writeIndex = b.writeIndex := g2
  refine ⟨_, process_queued b t hr hw, rfl, rfl, g2, g1, ?_⟩
  show ringSlice _ b.writeIndex _ = []
  rw [g3]
  exact ringSlice_empty _ _

theorem C12_process_fifo_witness :
    stalledLoopQueue.queued =
      [⟨0, .PRESSED⟩, ⟨100, .RELEASED⟩, ⟨5000, .PRESSED⟩, ⟨5100, .RELEASED⟩] ∧
    ∃ r : MultiPressButton,
      stalledLoopQueue.process 7000 = some r ∧
      r = { stalledLoopQueue.classify
              (stalledLoopQueue.queued ++ [⟨7000, stalledLoopQueue.lastButtonPosition⟩]) with
            readIndex := stalledLoopQueue.writeIndex } ∧
      r.readIndex = stalledLoopQueue.writeIndex ∧
      r.writeIndex = stalledLoopQueue.writeIndex ∧
      r.eventBuffer = stalledLoopQueue.eventBuffer ∧ r.queued = [] :=
  ⟨by decide, C12_process_fifo stalledLoopQueue 7000 (by decide) (by decide)⟩

theorem C11_overflow_drops_newest_witness :
    ((MultiPressButton.ctor 2 2 50 1000 1000 (List.replicate 32 default)).addEvents
        (List.replicate 40 ⟨7, .PRESSED⟩)).queued =
      (List.replicate 40 (⟨7, .PRESSED⟩ : ButtonEvent)).take 31 ∧
    ((MultiPressButton.ctor 2 2 50 1000 1000 (List.replicate 32 default)).addEvents
        (List.replicate 40 ⟨7, .PRESSED⟩)).writeIndex < 32 :=
  ⟨(C11_overflow_drops_newest
      (MultiPressButton.ctor 2 2 50 1000 1000 (List.replicate 32 default))
      (List.replicate 40 ⟨7, .PRESSED⟩) 0 (by decide) (by decide) (by decide)).2.2.2.1,
   (C11_overflow_drops_newest
      (MultiPressButton.ctor 2 2 50 1000 1000 (List.replicate 32 default))
      (List.replicate 40 ⟨7, .PRESSED⟩) 0 (by decide) (by decide) (by decide)).2.2.1⟩

/-! ## The edge sampler, one pass at a time -/

/-- A pass that reads the position already recorded does nothing. -/
theorem pollButton_same (b : MultiPressButton) (level now millis : Nat)
    (hsame : (if level = LOW then ButtonPosition.PRESSED else .RELEASED) =
      b.lastButtonPosition) :
    b._pollButton level now millis = b := by
  simp only [MultiPressButton._pollButton]
  rw [if_pos hsame]

/-- A pass that reads a new position too early does nothing. -/
theorem pollButton_rejected (b : MultiPressButton) (level now millis : Nat)
    (hdiff : (if level = LOW then ButtonPosition.PRESSED else .RELEASED) ≠
      b.lastButtonPosition)
    (hearly : usub now b.lastDebounceTime < b.BUTTON_DEBOUNCE) :
    b._pollButton level now millis = b := by
  simp only [MultiPressButton._pollButton]
  rw [if_neg hdiff, if_neg (Nat.not_le.mpr hearly)]

/-- A pass that reads a new position late enough accepts it. -/
theorem pollButton_accepted (b : MultiPressButton) (level now millis : Nat)
    (hdiff : (if level = LOW then ButtonPosition.PRESSED else .RELEASED) ≠
      b.lastButtonPosition)
    (hlate : b.BUTTON_DEBOUNCE ≤ usub now b.lastDebounceTime) :
    b._pollButton level now millis =
      { b._addEvent (if level = LOW then .PRESSED else .RELEASED) millis with
        lastDebounceTime := now
        lastButtonPosition := if level = LOW then .PRESSED else .RELEASED } := by
  simp only [MultiPressButton._pollButton]
  rw [if_neg hdiff, if_pos hlate]

theorem pollTicks_cons (b : MultiPressButton) (t : Tick) (ts : List Tick) :
    b.pollTicks (t :: ts) = (b._pollButton t.level t.now t.millis).pollTicks ts := rfl

theorem pollTicks_append (b : MultiPressButton) (l1 l2 : List Tick) :
    b.pollTicks (l1 ++ l2) = (b.pollTicks l1).pollTicks l2 := by
  simp [MultiPressButton.pollTicks, List.foldl_append]

/-- Passes that are each not accepted leave the button as it was. -/
theorem pollTicks_not_accepted (b : MultiPressButton) (ts : List Tick)
    (h : ∀ t ∈ ts, t.position = b.lastButtonPosition ∨
      usub t.now b.lastDebounceTime < b.BUTTON_DEBOUNCE) : b.pollTicks ts = b := by
  induction ts with
  | nil => rfl
  | cons t ts ih =>
    have hstep : b._pollButton t.level t.now t.millis = b := by
      by_cases hsame : t.position = b.lastButtonPosition
      · exact pollButton_same b _ _ _ hsame
      · rcases h t (List.mem_cons_self t ts) with h1 | h1
        · exact absurd h1 hsame
        · exact pollButton_rejected b _ _ _ hsame h1
    rw [pollTicks_cons, hstep]
    exact ih fun x hx => h x (List.mem_cons_of_mem t hx)

/-- The `i`-th button after a pass of `_pollButtons` is the `i`-th button after the loop
body with its own readings. -/
theorem pollButtonsFrom_getElem? (digitalRead : Nat → Nat) (clock : Nat → Nat × Nat)
    (k : Nat) (bs : List MultiPressButton) (i : Nat) :
    (_pollButtonsFrom digitalRead clock k bs)[i]? =
      bs[i]?.map fun b =>
        b._pollButton (digitalRead b.pin) (clock (k + i)).1 (clock (k + i)).2 := by
  induction bs generalizing k i with
  | nil => simp [_pollButtonsFrom]
  | cons b bs ih =>
    cases i with
    | zero => simp [_pollButtonsFrom]
    | succ i =>
      simp only [_pollButtonsFrom, List.getElem?_cons_succ, ih]
      have hk : k + 1 + i = k + (i + 1) := by omega
      rw [hk]

/-- C13: when the raw position read for a button differs from `lastButtonPosition` but
`(now - lastDebounceTime) < BUTTON_DEBOUNCE`, the pass of `_pollButtons` leaves that
button exactly as it was: no event is pushed and `lastButtonPosition`,
`lastDebounceTime` and the queue indices are unchanged. So after any run of passes that
are not accepted the button is still unchanged, and the first pass after them that reads
a differing position with `(now - lastDebounceTime) ≥ BUTTON_DEBOUNCE` is accepted: the
event is handed to `_addEvent` and both sampler fields are updated. -/
theorem C13_debounce_rejection (b : MultiPressButton) (t : Tick)
    (hdiff : t.position ≠ b.lastButtonPosition) :
    (usub t.now b.lastDebounceTime < b.BUTTON_DEBOUNCE →
      b._pollButton t.level t.now t.millis = b ∧
      ∀ (digitalRead : Nat → Nat) (clock : Nat → Nat × Nat) (bs : List MultiPressButton)
        (i : Nat), bs[i]? = some b → digitalRead b.pin = t.level → (clock i).1 = t.now →
        (_pollButtons digitalRead clock bs)[i]? = some b) ∧
    (∀ rejected : List Tick,
      (∀ x ∈ rejected, x.position = b.lastButtonPosition ∨
        usub x.now b.lastDebounceTime < b.BUTTON_DEBOUNCE) →
      b.pollTicks rejected = b ∧
      (b.BUTTON_DEBOUNCE ≤ usub t.now b.lastDebounceTime →
        b.pollTicks (rejected ++ [t]) =
          { b._addEvent t.position t.millis with
            lastDebounceTime := t.now
            lastButtonPosition := t.position })) := by
  constructor
  · intro hearly
    have hone := pollButton_rejected b t.level t.now t.millis hdiff hearly
    refine ⟨hone, fun digitalRead clock bs i hb hlevel hnow => ?_⟩
    rw [_pollButtons, pollButtonsFrom_getElem?, hb, Option.map_some', hlevel, Nat.zero_add, hnow]
    exact congrArg some (pollButton_rejected b t.level t.now _ hdiff hearly)
  · intro rejected hrej
    have hfix := pollTicks_not_accepted b rejected hrej
    refine ⟨hfix, fun hlate => ?_⟩
    rw [pollTicks_append, hfix]
    exact pollButton_accepted b t.level t.now t.millis hdiff hlate

theorem C13_debounce_rejection_witness :
    (MultiPressButton.ctor 2 2 50 1000 1000 [])._pollButton 0 20 20 =
      MultiPressButton.ctor 2 2 50 1000 1000 [] ∧
    (MultiPressButton.ctor 2 2 50 1000 1000 []).pollTicks
        ([⟨0, 20, 20⟩, ⟨0, 30, 30⟩, ⟨1, 40, 40⟩] ++ [⟨0, 50, 51⟩]) =
      { (MultiPressButton.ctor 2 2 50 1000 1000 [])._addEvent .PRESSED 51 with
        lastDebounceTime := 50
        lastButtonPosition := .PRESSED } :=
  ⟨((C13_debounce_rejection (MultiPressButton.ctor 2 2 50 1000 1000 []) ⟨0, 20, 20⟩
      (by decide)).1 (by decide)).1,
   ((C13_debounce_rejection (MultiPressButton.ctor 2 2 50 1000 1000 []) ⟨0, 50, 51⟩
      (by decide)).2 [⟨0, 20, 20⟩, ⟨0, 30, 30⟩, ⟨1, 40, 40⟩] (by decide)).2 (by decide)⟩

/-! ## Long press: detection and release -/

/-- C16: a Pressed event at time `ts` processed in state Pressing triggers a long press
(the state becomes LongPressed) if and only if the long-press flag is not set,
`pressCount = 0` and `ts - pressStart ≥ LONG_PRESS_DURATION`. When it does, the state is
LongPressed, and the long-press handler is called once and the flag left false if the
handler is registered, the flag is left true and no handler called if not; nothing else
changes. When it does not (in particular whenever `pressCount ≥ 1`), the event changes no
field and calls no handler. -/
theorem C16_long_press_trigger (b : MultiPressButton) (ts : Nat)
    (hs : b.state = .PRESSING) :
    ((b._processEvent ⟨ts, .PRESSED⟩).state = .LONG_PRESSED ↔
      (b.longPressed = false ∧ b.pressCount = 0 ∧
        b.LONG_PRESS_DURATION ≤ usub ts b.pressStart)) ∧
    (b.longPressed = false ∧ b.pressCount = 0 ∧
        b.LONG_PRESS_DURATION ≤ usub ts b.pressStart →
      b._processEvent ⟨ts, .PRESSED⟩ =
        { b with
          longPressed := !b.longPressAction
          invoked := if b.longPressAction then b.invoked ++ [.longPress] else b.invoked
          state := .LONG_PRESSED }) ∧
    (¬ (b.longPressed = false ∧ b.pressCount = 0 ∧
        b.LONG_PRESS_DURATION ≤ usub ts b.pressStart) →
      b._processEvent ⟨ts, .PRESSED⟩ = b) ∧
    (1 ≤ b.pressCount → b._processEvent ⟨ts, .PRESSED⟩ = b) := by
  refine ⟨?_, fun h => processEvent_pressing_pressed_long b ts hs h.1 h.2.1 h.2.2,
    fun h => processEvent_pressing_pressed_not b ts hs h,
    fun h => processEvent_pressing_pressed_counted b ts hs (by omega)⟩
  by_cases hc : b.longPressed = false ∧ b.pressCount = 0 ∧
      b.LONG_PRESS_DURATION ≤ usub ts b.pressStart
  · rw [processEvent_pressing_pressed_long b ts hs hc.1 hc.2.1 hc.2.2]
    exact ⟨fun _ => hc, fun _ => rfl⟩
  · rw [processEvent_pressing_pressed_not b ts hs hc]
    exact ⟨fun h => absurd (hs.symm.trans h) (by decide), fun h => absurd h hc⟩

theorem C16_long_press_trigger_witness :
    (((MultiPressButton.ctor 2 2 50 1000 1000 []).setActions false false false true)._processEvent
        ⟨0, .PRESSED⟩).state = .PRESSING ∧
    (((MultiPressButton.ctor 2 2 50 1000 1000 []).setActions false false false true)._processEvent
        ⟨0, .PRESSED⟩)._processEvent ⟨1000, .PRESSED⟩ =
      { ((MultiPressButton.ctor 2 2 50 1000 1000 []).setActions false false false
            true)._processEvent ⟨0, .PRESSED⟩ with
        longPressed := false
        invoked := [.longPress]
        state := .LONG_PRESSED } ∧
    (((MultiPressButton.ctor 2 2 50 1000 1000 []).setActions false false false true)._processEvent
        ⟨0, .PRESSED⟩)._processEvent ⟨999, .PRESSED⟩ =
      ((MultiPressButton.ctor 2 2 50 1000 1000 []).setActions false false false
        true)._processEvent ⟨0, .PRESSED⟩ :=
  ⟨by decide,
   (C16_long_press_trigger
      (((MultiPressButton.ctor 2 2 50 1000 1000 []).setActions false false false
        true)._processEvent ⟨0, .PRESSED⟩) 1000 (by decide)).2.1 (by decide),
   (C16_long_press_trigger
      (((MultiPressButton.ctor 2 2 50 1000 1000 []).setActions false false false
        true)._processEvent ⟨0, .PRESSED⟩) 999 (by decide)).2.2.1 (by decide)⟩

/-- C17: in state LongPressed a Released event sets `pressCount` to 0 and the state to
Idle and changes nothing else (no handler is called, no flag changes), and a Pressed
event, whatever its timestamp, leaves the whole button unchanged; so a long hold followed
by its release delivers no single, double or triple outcome: the three gesture flags and
the handler trace are what they were before the release. -/
theorem C17_long_pressed_state (b : MultiPressButton) (ts : Nat)
    (hs : b.state = .LONG_PRESSED) :
    b._processEvent ⟨ts, .RELEASED⟩ = { b with pressCount := 0, state := .IDLE } ∧
    b._processEvent ⟨ts, .PRESSED⟩ = b ∧
    (∀ held : List Nat,
      (b.classify (checks .PRESSED held ++ [⟨ts, .RELEASED⟩])) =
        { b with pressCount := 0, state := .IDLE }) := by
  refine ⟨processEvent_long_pressed_released b ts hs, processEvent_long_pressed_pressed b ts hs,
    fun held => ?_⟩
  have hfix : b.classify (checks .PRESSED held) = b := by
    apply classify_fixed
    intro e he
    obtain ⟨t, -, rfl⟩ := List.mem_map.mp he
    exact processEvent_long_pressed_pressed b t hs
  rw [classify_append, hfix, classify_cons, classify_nil]
  exact processEvent_long_pressed_released b ts hs

theorem C17_long_pressed_state_witness :
    ((MultiPressButton.ctor 2 2 50 1000 1000 []).classify
        [⟨0, .PRESSED⟩, ⟨1000, .PRESSED⟩]).state = .LONG_PRESSED ∧
    ((MultiPressButton.ctor 2 2 50 1000 1000 []).classify
        [⟨0, .PRESSED⟩, ⟨1000, .PRESSED⟩])._processEvent ⟨1500, .RELEASED⟩ =
      { (MultiPressButton.ctor 2 2 50 1000 1000 []).classify
          [⟨0, .PRESSED⟩, ⟨1000, .PRESSED⟩] with pressCount := 0, state := .IDLE } :=
  ⟨by decide,
   (C17_long_pressed_state
      ((MultiPressButton.ctor 2 2 50 1000 1000 []).classify [⟨0, .PRESSED⟩, ⟨1000, .PRESSED⟩])
      1500 (by decide)).1⟩

/-! ## Registration -/

/-- C15 fails on the code: two buttons that each call `setup()` once make two calls of
`TimerLib.setInterval_us`, not one, because `timerInitialized` is a member of each button
(set by the constructor to false) and not shared: each button finds its own flag unset.
The button list does hold each button exactly once. -/
theorem C15_timer_registered_per_button :
    (((Sketch.mk
        [MultiPressButton.ctor 4 2 50 1000 1000 [], MultiPressButton.ctor 5 2 50 1000 1000 []]
        [] [] []).setup 0).setup 1).setIntervalCalls = [10000, 10000] ∧
    (((Sketch.mk
        [MultiPressButton.ctor 4 2 50 1000 1000 [], MultiPressButton.ctor 5 2 50 1000 1000 []]
        [] [] []).setup 0).setup 1).buttonList = [0, 1] ∧
    (((Sketch.mk [MultiPressButton.ctor 4 2 50 1000 1000 []] [] [] []).setup 0).setup
        0).setIntervalCalls = [10000] := by
  decide

/-! ## Wraparound: only differences of clock readings matter -/

theorem usub_shift (k a b : Nat) : usub (shiftTime k a) (shiftTime k b) = usub a b := by
  simp only [usub, shiftTime, ULONG_MOD]
  norm_num
  omega

/-- An interval of `d` ms is measured as `d`, wherever on the 32-bit clock it starts. -/
theorem usub_shift_self (d a : Nat) (hd : d < ULONG_MOD) : usub (shiftTime d a) a = d := by
  simp only [usub, shiftTime, ULONG_MOD] at *
  norm_num at *
  omega

theorem Transition.shift {b : MultiPressButton} {ts : Nat} {pos : ButtonPosition}
    {r : MultiPressButton} (h : Transition b ts pos r) (k : Nat) :
    Transition (b.shift k) (shiftTime k ts) pos (r.shift k) := by
  cases h with
  | press hs => exact .press hs
  | idleReleased hs => exact .idleReleased hs
  | waitingWithin hs hw =>
    exact .waitingWithin hs (by
      show usub (shiftTime k ts) (shiftTime k b.lastPressTime) ≤ _
      rw [usub_shift]; exact hw)
  | expiredSingle hs hw hc =>
    exact .expiredSingle hs (by
      show _ < usub (shiftTime k ts) (shiftTime k b.lastPressTime)
      rw [usub_shift]; exact hw) hc
  | expiredDouble hs hw hc =>
    exact .expiredDouble hs (by
      show _ < usub (shiftTime k ts) (shiftTime k b.lastPressTime)
      rw [usub_shift]; exact hw) hc
  | expiredTriple hs hw hc =>
    exact .expiredTriple hs (by
      show _ < usub (shiftTime k ts) (shiftTime k b.lastPressTime)
      rw [usub_shift]; exact hw) hc
  | expiredNone hs hw hc =>
    exact .expiredNone hs (by
      show _ < usub (shiftTime k ts) (shiftTime k b.lastPressTime)
      rw [usub_shift]; exact hw) hc
  | longPress hs hl hc hd =>
    exact .longPress hs hl hc (by
      show _ ≤ usub (shiftTime k ts) (shiftTime k b.pressStart)
      rw [usub_shift]; exact hd)
  | held hs hn =>
    exact .held hs (by
      show ¬ (b.longPressed = false ∧ b.pressCount = 0 ∧
        b.LONG_PRESS_DURATION ≤ usub (shiftTime k ts) (shiftTime k b.pressStart))
      rw [usub_shift]; exact hn)
  | releaseSingle hs hc hsa hda hta => exact .releaseSingle hs hc hsa hda hta
  | releaseDouble hs hc hda hta => exact .releaseDouble hs hc hda hta
  | releaseTriple hs hc hta => exact .releaseTriple hs hc hta
  | releaseCounted hs h1 h2 h3 => exact .releaseCounted hs h1 h2 h3
  | longHeld hs => exact .longHeld hs
  | longReleased hs => exact .longReleased hs

/-- The state machine on a clock that runs ahead does what it does on the clock. -/
theorem processEvent_shift (b : MultiPressButton) (e : ButtonEvent) (k : Nat) :
    (b.shift k)._processEvent (e.shift k) = (b._processEvent e).shift k :=
  ((transition b e.timestamp e.buttonPosition).shift k).result_eq

theorem classify_shift (b : MultiPressButton) (l : List ButtonEvent) (k : Nat) :
    (b.shift k).classify (l.map fun e => e.shift k) = (b.classify l).shift k := by
  induction l generalizing b with
  | nil => rfl
  | cons e l ih => rw [List.map_cons, classify_cons, classify_cons, processEvent_shift, ih]

theorem addEvent_shift (b : MultiPressButton) (p : ButtonPosition) (m k : Nat) :
    (b.shift k)._addEvent p (shiftTime k m) = (b._addEvent p m).shift k := by
  by_cases hfull : (b.writeIndex + 1) % 32 = b.readIndex
  · rw [addEvent_full b p m hfull, addEvent_full (b.shift k) p _ hfull]
  · rw [addEvent_not_full b p m hfull, addEvent_not_full (b.shift k) p _ hfull]
    simp [MultiPressButton.shift, ButtonEvent.shift, List.map_set]

/-- The sampler on a clock that runs ahead does what it does on the clock. -/
theorem pollButton_shift (b : MultiPressButton) (level now m k : Nat) :
    (b.shift k)._pollButton level (shiftTime k now) (shiftTime k m) =
      (b._pollButton level now m).shift k := by
  by_cases hsame : (if level = LOW then ButtonPosition.PRESSED else .RELEASED) =
      b.lastButtonPosition
  · rw [pollButton_same b _ _ _ hsame, pollButton_same (b.shift k) _ _ _ hsame]
  · by_cases hlate : b.BUTTON_DEBOUNCE ≤ usub now b.lastDebounceTime
    · have hlate2 : (b.shift k).BUTTON_DEBOUNCE ≤
          usub (shiftTime k now) (b.shift k).lastDebounceTime := by
        show _ ≤ usub (shiftTime k now) (shiftTime k b.lastDebounceTime)
        rw [usub_shift]; exact hlate
      rw [pollButton_accepted b _ _ _ hsame hlate,
        pollButton_accepted (b.shift k) _ _ _ hsame hlate2, addEvent_shift]
      rfl
    · have hearly := Nat.lt_of_not_le hlate
      have hearly2 : usub (shiftTime k now) (b.shift k).lastDebounceTime <
          (b.shift k).BUTTON_DEBOUNCE := by
        show usub (shiftTime k now) (shiftTime k b.lastDebounceTime) < _
        rw [usub_shift]; exact hearly
      rw [pollButton_rejected b _ _ _ hsame hearly,
        pollButton_rejected (b.shift k) _ _ _ hsame hearly2]

theorem ringSlice_map (buf : List ButtonEvent) (r w : Nat) (f : ButtonEvent → ButtonEvent)
    (hlen : buf.length = 32) :
    ringSlice (buf.map f) r w = (ringSlice buf r w).map f := by
  simp only [ringSlice, RING_BUFFER_SIZE, List.map_map]
  apply List.map_congr_left
  intro i _
  have hi : (r + i) % 32 < buf.length := by
    rw [hlen]
    exact Nat.mod_lt _ (by norm_num)
  simp only [Function.comp]
  rw [List.getD_eq_getElem?_getD, List.getD_eq_getElem?_getD, List.getElem?_map,
    List.getElem?_eq_getElem hi]
  rfl

/-- A `process` call on a clock that runs ahead does what it does on the clock. -/
theorem process_shift (b : MultiPressButton) (t k : Nat) (hr : b.readIndex < 32)
    (hw : b.writeIndex < 32) (hlen : b.eventBuffer.length = 32) :
    (b.shift k).process (shiftTime k t) = (b.process t).map fun r => r.shift k := by
  have hq : (b.shift k).queued = b.queued.map fun e => e.shift k :=
    ringSlice_map b.eventBuffer b.readIndex b.writeIndex _ hlen
  have hl : (b.shift k).queued ++ [⟨shiftTime k t, (b.shift k).lastButtonPosition⟩] =
      (b.queued ++ [(⟨t, b.lastButtonPosition⟩ : ButtonEvent)]).map
        fun e : ButtonEvent => e.shift k := by
    rw [hq, List.map_append]
    rfl
  rw [process_queued b t hr hw, process_queued (b.shift k) _ hr hw, hl, classify_shift]
  rfl

/-- C18: the elapsed-time tests depend only on differences of 32-bit clock readings.
For every button `b` and every constant `k`, with `shiftTime k` adding `k` modulo `2^32`:
the measured difference of two shifted readings is that of the readings; `_processEvent`
on the shifted button and the shifted event gives the shifted result, so the same state,
press count, flags and handler calls; the sampler on the shifted button and shifted
readings gives the shifted result, so the same accept or reject decision; on a
well-formed queue `process()` at the shifted time gives the shifted result; and an
interval of length `d < 2^32` is measured as exactly `d` wherever it starts, across the
wrap included. -/
theorem C18_wraparound_safe (b : MultiPressButton) (k : Nat) :
    (∀ a c : Nat, usub (shiftTime k a) (shiftTime k c) = usub a c) ∧
    (∀ e : ButtonEvent,
      (b.shift k)._processEvent (e.shift k) = (b._processEvent e).shift k ∧
      ((b.shift k)._processEvent (e.shift k)).state = (b._processEvent e).state ∧
      ((b.shift k)._processEvent (e.shift k)).pressCount = (b._processEvent e).pressCount ∧
      ((b.shift k)._processEvent (e.shift k)).invoked = (b._processEvent e).invoked ∧
      ((b.shift k)._processEvent (e.shift k)).singlePressed =
        (b._processEvent e).singlePressed ∧
      ((b.shift k)._processEvent (e.shift k)).doublePressed =
        (b._processEvent e).doublePressed ∧
      ((b.shift k)._processEvent (e.shift k)).triplePressed =
        (b._processEvent e).triplePressed ∧
      ((b.shift k)._processEvent (e.shift k)).longPressed =
        (b._processEvent e).longPressed) ∧
    (∀ level now m : Nat,
      (b.shift k)._pollButton level (shiftTime k now) (shiftTime k m) =
        (b._pollButton level now m).shift k ∧
      ((b.shift k)._pollButton level (shiftTime k now) (shiftTime k m)).lastButtonPosition =
        (b._pollButton level now m).lastButtonPosition ∧
      ((b.shift k)._pollButton level (shiftTime k now) (shiftTime k m)).writeIndex =
        (b._pollButton level now m).writeIndex) ∧
    (b.readIndex < 32 → b.writeIndex < 32 → b.eventBuffer.length = 32 →
      ∀ t : Nat, (b.shift k).process (shiftTime k t) = (b.process t).map fun r => r.shift k) ∧
    (∀ d a : Nat, d < ULONG_MOD → usub (shiftTime d a) a = d) := by
  refine ⟨usub_shift k, fun e => ?_, fun level now m => ?_,
    fun hr hw hlen t => process_shift b t k hr hw hlen, fun d a hd => usub_shift_self d a hd⟩
  · have h := processEvent_shift b e k
    rw [h]
    exact ⟨rfl, rfl, rfl, rfl, rfl, rfl, rfl, rfl⟩
  · have h := pollButton_shift b level now m k
    rw [h]
    exact ⟨rfl, rfl, rfl⟩

theorem C18_wraparound_safe_witness :
    (stalledLoopQueue.shift 4294967246).process (shiftTime 4294967246 7000) =
      (stalledLoopQueue.process 7000).map (fun r => r.shift 4294967246) ∧
    usub (shiftTime 100 4294967290) 4294967290 = 100 :=
  ⟨(C18_wraparound_safe stalledLoopQueue 4294967246).2.2.2.1 (by decide) (by decide)
      (by decide) 7000,
   (C18_wraparound_safe stalledLoopQueue 4294967246).2.2.2.2 100 4294967290 (by decide)⟩

/-! ## The invariant of the state machine -/

theorem Transition.invariant {b : MultiPressButton} {ts : Nat} {pos : ButtonPosition}
    {r : MultiPressButton} (h : Transition b ts pos r) (hinv : b.invariant) :
    r.invariant := by
  obtain ⟨i1, i2, i3, i4, i5, i6⟩ := hinv
  cases h
  case press hs =>
    rcases hs with hs | hs
    · simp_all [MultiPressButton.invariant, MultiPressButton.atMostOneGesture]
    · simp_all [MultiPressButton.invariant, MultiPressButton.atMostOneGesture]
      omega
  all_goals simp_all [MultiPressButton.invariant, MultiPressButton.atMostOneGesture]

theorem processEvent_invariant (b : MultiPressButton) (e : ButtonEvent)
    (hinv : b.invariant) : (b._processEvent e).invariant :=
  (transition b e.timestamp e.buttonPosition).invariant hinv

/-- A property kept by `_processEvent` and blind to `readIndex` is kept by the drain loop
of `process`, whenever the loop ends. -/
theorem processLoop_preserves (P : MultiPressButton → Prop)
    (hstep : ∀ (b : MultiPressButton) (e : ButtonEvent), P b → P (b._processEvent e))
    (hread : ∀ (b : MultiPressButton) (x : Nat), P b → P (b.withReadIndex x))
    (fuel : Nat) (b r : MultiPressButton) (hrun : b.processLoop fuel = some r) (hP : P b) :
    P r := by
  induction fuel generalizing b with
  | zero =>
    simp only [MultiPressButton.processLoop] at hrun
    split_ifs at hrun
    cases hrun
    exact hP
  | succ fuel ih =>
    simp only [MultiPressButton.processLoop] at hrun
    split_ifs at hrun
    · exact ih _ hrun (hread _ _ (hstep _ _ hP))
    · cases hrun
      exact hP

/-- A property kept by `_processEvent` and blind to `readIndex` is kept by `process`,
whenever it returns. -/
theorem process_preserves (P : MultiPressButton → Prop)
    (hstep : ∀ (b : MultiPressButton) (e : ButtonEvent), P b → P (b._processEvent e))
    (hread : ∀ (b : MultiPressButton) (x : Nat), P b → P (b.withReadIndex x))
    (b r : MultiPressButton) (t : Nat) (hrun : b.process t = some r) (hP : P b) : P r := by
  simp only [MultiPressButton.process, Option.map_eq_some'] at hrun
  obtain ⟨b1, h1, rfl⟩ := hrun
  exact hstep _ _ (processLoop_preserves P hstep hread _ b b1 h1 hP)

theorem addEvent_machine (b : MultiPressButton) (p : ButtonPosition) (m : Nat) :
    (b._addEvent p m).state = b.state ∧ (b._addEvent p m).pressCount = b.pressCount ∧
    (b._addEvent p m).longPressed = b.longPressed ∧
    (b._addEvent p m).singlePressed = b.singlePressed ∧
    (b._addEvent p m).doublePressed = b.doublePressed ∧
    (b._addEvent p m).triplePressed = b.triplePressed ∧
    (b._addEvent p m).BUTTON_DEBOUNCE = b.BUTTON_DEBOUNCE ∧
    (b._addEvent p m).lastButtonPosition = b.lastButtonPosition ∧
    (b._addEvent p m).lastDebounceTime = b.lastDebounceTime := by
  by_cases hfull : (b.writeIndex + 1) % 32 = b.readIndex
  · rw [addEvent_full b p m hfull]
    exact ⟨rfl, rfl, rfl, rfl, rfl, rfl, rfl, rfl, rfl⟩
  · rw [addEvent_not_full b p m hfull]
    exact ⟨rfl, rfl, rfl, rfl, rfl, rfl, rfl, rfl, rfl⟩

/-- The invariant reads only the state, the press count and the four flags. -/
theorem invariant_congr {b r : MultiPressButton} (h1 : r.state = b.state)
    (h2 : r.pressCount = b.pressCount) (h3 : r.longPressed = b.longPressed)
    (h4 : r.singlePressed = b.singlePressed) (h5 : r.doublePressed = b.doublePressed)
    (h6 : r.triplePressed = b.triplePressed) (hinv : b.invariant) : r.invariant := by
  unfold MultiPressButton.invariant MultiPressButton.atMostOneGesture at *
  rw [h1, h2, h3, h4, h5, h6]
  exact hinv

theorem pollButton_invariant (b : MultiPressButton) (level now m : Nat)
    (hinv : b.invariant) : (b._pollButton level now m).invariant := by
  obtain ⟨a1, a2, a3, a4, a5, a6, -⟩ :=
    addEvent_machine b (if level = LOW then .PRESSED else .RELEASED) m
  by_cases hsame : (if level = LOW then ButtonPosition.PRESSED else .RELEASED) =
      b.lastButtonPosition
  · rw [pollButton_same b _ _ _ hsame]
    exact hinv
  · by_cases hlate : b.BUTTON_DEBOUNCE ≤ usub now b.lastDebounceTime
    · rw [pollButton_accepted b _ _ _ hsame hlate]
      exact invariant_congr a1 a2 a3 a4 a5 a6 hinv
    · rw [pollButton_rejected b _ _ _ hsame (Nat.lt_of_not_le hlate)]
      exact hinv

/-- Every reachable button satisfies the invariant. -/
theorem reachable_invariant {b : MultiPressButton} (h : Reachable b) : b.invariant := by
  induction h with
  | ctor pin mode d l w mem =>
    simp [MultiPressButton.invariant, MultiPressButton.atMostOneGesture, MultiPressButton.ctor]
  | processEvent e _ ih => exact processEvent_invariant _ e ih
  | process t _ hrun ih =>
    exact process_preserves MultiPressButton.invariant processEvent_invariant
      (fun _ _ h => h) _ _ t hrun ih
  | setActions s d t l _ ih => exact ih
  | singlePress _ ih =>
    obtain ⟨i1, i2, i3, i4, i5, i6⟩ := ih
    exact ⟨i1, i2, i3, by simp [MultiPressButton.singlePress], by
      simp [MultiPressButton.singlePress], i6⟩
  | doublePress _ ih =>
    obtain ⟨i1, i2, i3, i4, i5, i6⟩ := ih
    exact ⟨i1, i2, i3, by simp [MultiPressButton.doublePress], i5, by
      simp [MultiPressButton.doublePress]⟩
  | triplePress _ ih =>
    obtain ⟨i1, i2, i3, i4, i5, i6⟩ := ih
    exact ⟨i1, i2, i3, i4, by simp [MultiPressButton.triplePress], by
      simp [MultiPressButton.triplePress]⟩
  | longPress _ ih =>
    obtain ⟨i1, i2, i3, i4⟩ := ih
    exact ⟨i1, i2, fun hs => ⟨rfl, (i3 hs).2⟩, i4⟩
  | pollButton level now m _ ih => exact pollButton_invariant _ level now m ih

/-- C19: in every button reachable from a constructed one by calls of `_processEvent`,
`process`, `setActions`, the poll accessors and sampler passes (`pressCount` an unbounded
integer): state Idle or LongPressed implies `pressCount = 0`, state WaitingMultiPress
implies `pressCount ≥ 1`, and state Pressing implies that the long-press flag is false.
So when the window expires the count is 1, 2 or at least 3 and exactly one of the single,
double and triple outcomes is chosen, and no two of the three gesture flags are ever set
together. -/
theorem C19_state_machine_invariant (b : MultiPressButton) (h : Reachable b) :
    (b.state = .IDLE ∨ b.state = .LONG_PRESSED → b.pressCount = 0) ∧
    (b.state = .WAITING_MULTIPRESS → 1 ≤ b.pressCount) ∧
    (b.state = .PRESSING → b.longPressed = false) ∧
    (b.state = .WAITING_MULTIPRESS →
      (b.pressCount = 1 ∧ ¬ b.pressCount = 2 ∧ ¬ 3 ≤ b.pressCount) ∨
      (¬ b.pressCount = 1 ∧ b.pressCount = 2 ∧ ¬ 3 ≤ b.pressCount) ∨
      (¬ b.pressCount = 1 ∧ ¬ b.pressCount = 2 ∧ 3 ≤ b.pressCount)) ∧
    ¬ (b.singlePressed = true ∧ b.doublePressed = true) ∧
    ¬ (b.singlePressed = true ∧ b.triplePressed = true) ∧
    ¬ (b.doublePressed = true ∧ b.triplePressed = true) := by
  obtain ⟨i1, i2, i3, i4, i5, i6⟩ := reachable_invariant h
  refine ⟨i1, i2, fun hs => (i3 hs).1, fun hs => ?_, i4, i5, i6⟩
  have := i2 hs
  omega

theorem C19_state_machine_invariant_witness :
    (((MultiPressButton.ctor 2 2 50 1000 1000 []).classify
        [⟨0, .PRESSED⟩, ⟨100, .RELEASED⟩]).state = .WAITING_MULTIPRESS →
      1 ≤ ((MultiPressButton.ctor 2 2 50 1000 1000 []).classify
        [⟨0, .PRESSED⟩, ⟨100, .RELEASED⟩]).pressCount) ∧
    ((MultiPressButton.ctor 2 2 50 1000 1000 []).classify
        [⟨0, .PRESSED⟩, ⟨100, .RELEASED⟩]).state = .WAITING_MULTIPRESS :=
  ⟨(C19_state_machine_invariant
      ((MultiPressButton.ctor 2 2 50 1000 1000 []).classify [⟨0, .PRESSED⟩, ⟨100, .RELEASED⟩])
      (Reachable.processEvent ⟨100, .RELEASED⟩
        (Reachable.processEvent ⟨0, .PRESSED⟩ (Reachable.ctor 2 2 50 1000 1000 [])))).2.1,
   by decide⟩

/-! ## The sampler over a run of ticks -/

theorem pollButton_accept (b : MultiPressButton) (t : Tick)
    (hdiff : t.position ≠ b.lastButtonPosition)
    (hlate : b.BUTTON_DEBOUNCE ≤ usub t.now b.lastDebounceTime) :
    b._pollButton t.level t.now t.millis = b.accept t :=
  pollButton_accepted b t.level t.now t.millis hdiff hlate

/-- When every change of the raw position comes at least the debounce interval after the
one before (after `lastDebounceTime` for the first), the sampler accepts each change at
the tick that shows it, and nothing else. -/
theorem pollTicks_changes (b : MultiPressButton) (ticks : List Tick)
    (hspaced : spacedFrom b.BUTTON_DEBOUNCE b.lastDebounceTime
      (rawChanges b.lastButtonPosition ticks)) :
    b.pollTicks ticks = b.acceptAll (rawChanges b.lastButtonPosition ticks) ∧
    b.accepted ticks = rawChanges b.lastButtonPosition ticks := by
  induction ticks generalizing b with
  | nil => exact ⟨rfl, rfl⟩
  | cons t ts ih =>
    by_cases hsame : t.position = b.lastButtonPosition
    · have hstep : b._pollButton t.level t.now t.millis = b := pollButton_same b _ _ _ hsame
      have hraw : rawChanges b.lastButtonPosition (t :: ts) =
          rawChanges b.lastButtonPosition ts := by
        simp [rawChanges, hsame]
      rw [hraw] at hspaced ⊢
      rw [pollTicks_cons, MultiPressButton.accepted, hstep]
      simpa using ih b hspaced
    · have hraw : rawChanges b.lastButtonPosition (t :: ts) =
          t :: rawChanges t.position ts := by
        simp [rawChanges, hsame]
      rw [hraw] at hspaced
      have hstep := pollButton_accept b t hsame hspaced.1
      have hpos : (b.accept t).lastButtonPosition = t.position := rfl
      have hnow : (b.accept t).lastDebounceTime = t.now := rfl
      have hdeb : (b.accept t).BUTTON_DEBOUNCE = b.BUTTON_DEBOUNCE :=
        (addEvent_machine b t.position t.millis).2.2.2.2.2.2.1
      have hrest := ih (b.accept t) (by rw [hpos, hnow, hdeb]; exact hspaced.2)
      rw [hpos] at hrest
      rw [hraw, pollTicks_cons, MultiPressButton.accepted, hstep, hpos, if_pos hsame,
        hrest.1, hrest.2]
      exact ⟨rfl, rfl⟩

theorem accept_queued (b : MultiPressButton) (t : Tick) (hr : b.readIndex < 32)
    (hw : b.writeIndex < 32) (hlen : b.eventBuffer.length = 32)
    (hroom : b.queued.length < 31) :
    (b.accept t).queued = b.queued ++ [t.event] ∧ (b.accept t).readIndex < 32 ∧
    (b.accept t).writeIndex < 32 ∧ (b.accept t).eventBuffer.length = 32 := by
  have hfull : (b.writeIndex + 1) % 32 ≠ b.readIndex := fun h => by
    have := (full_iff_queued_length b hr hw).mp h
    omega
  obtain ⟨w1, w2, w3⟩ := addEvent_wf b t.position t.millis hw
  exact ⟨addEvent_queued b t.position t.millis hr hw hlen hfull, w1 ▸ hr, w2, w3.trans hlen⟩

/-- As long as there is room, the accepted transitions are queued in order. -/
theorem acceptAll_queued (b : MultiPressButton) (cs : List Tick) (hr : b.readIndex < 32)
    (hw : b.writeIndex < 32) (hlen : b.eventBuffer.length = 32)
    (hroom : b.queued.length + cs.length ≤ 31) :
    (b.acceptAll cs).queued = b.queued ++ cs.map Tick.event := by
  induction cs generalizing b with
  | nil => simp [MultiPressButton.acceptAll]
  | cons t cs ih =>
    have hlt : b.queued.length < 31 := by
      simp only [List.length_cons] at hroom
      omega
    obtain ⟨q1, q2, q3, q4⟩ := accept_queued b t hr hw hlen hlt
    have hfold : b.acceptAll (t :: cs) = (b.accept t).acceptAll cs := rfl
    rw [hfold, ih (b.accept t) q2 q3 q4 (by
      rw [q1, List.length_append, List.length_singleton]
      simp only [List.length_cons] at hroom
      omega), q1]
    simp

/-- Repeated readings of the same position add no press-release cycle. -/
theorem releases_rawChanges (prev : ButtonPosition) (ticks : List Tick) :
    releases prev ((rawChanges prev ticks).map Tick.position) =
      releases prev (ticks.map Tick.position) := by
  induction ticks generalizing prev with
  | nil => rfl
  | cons t ts ih =>
    by_cases hsame : t.position = prev
    · have hraw : rawChanges prev (t :: ts) = rawChanges prev ts := by
        simp [rawChanges, hsame]
      rw [hraw, ih prev, List.map_cons, releases, hsame]
      cases prev <;> simp
    · have hraw : rawChanges prev (t :: ts) = t :: rawChanges t.position ts := by
        simp [rawChanges, hsame]
      rw [hraw, List.map_cons, List.map_cons, releases, releases, ih t.position]

/-! ## Debounce: every spaced change is accepted once -/

/-- C14, as stated, fails for a click that starts less than the debounce interval after
clock 0: the constructor sets `lastDebounceTime = 0`, so with debounce 50 a press read at
the ticks 5, 15, 25, 35 and 45 is rejected each time, and at tick 55 the button is up
again, which is the position on record. The two raw changes (at 5 and at 55) are 50 ms
apart, there is one physical press-release cycle, and nothing at all is pushed to the
queue. -/
theorem C14_click_after_boot_lost :
    rawChanges .RELEASED
        [⟨0, 5, 5⟩, ⟨0, 15, 15⟩, ⟨0, 25, 25⟩, ⟨0, 35, 35⟩, ⟨0, 45, 45⟩, ⟨1, 55, 55⟩,
          ⟨1, 65, 65⟩] = [⟨0, 5, 5⟩, ⟨1, 55, 55⟩] ∧
    spaced 50
      (rawChanges .RELEASED
        [⟨0, 5, 5⟩, ⟨0, 15, 15⟩, ⟨0, 25, 25⟩, ⟨0, 35, 35⟩, ⟨0, 45, 45⟩, ⟨1, 55, 55⟩,
          ⟨1, 65, 65⟩]) ∧
    releases .RELEASED
      (([⟨0, 5, 5⟩, ⟨0, 15, 15⟩, ⟨0, 25, 25⟩, ⟨0, 35, 35⟩, ⟨0, 45, 45⟩, ⟨1, 55, 55⟩,
          ⟨1, 65, 65⟩] : List Tick).map Tick.position) = 1 ∧
    ((MultiPressButton.ctor 2 2 50 1000 1000 (List.replicate 32 default)).pollTicks
      [⟨0, 5, 5⟩, ⟨0, 15, 15⟩, ⟨0, 25, 25⟩, ⟨0, 35, 35⟩, ⟨0, 45, 45⟩, ⟨1, 55, 55⟩,
        ⟨1, 65, 65⟩]).queued = [] ∧
    releases .RELEASED
      (((MultiPressButton.ctor 2 2 50 1000 1000 (List.replicate 32 default)).pollTicks
        [⟨0, 5, 5⟩, ⟨0, 15, 15⟩, ⟨0, 25, 25⟩, ⟨0, 35, 35⟩, ⟨0, 45, 45⟩, ⟨1, 55, 55⟩,
          ⟨1, 65, 65⟩]).queued.map fun e => e.buttonPosition) = 0 := by
  decide

/-- C14, amended: for every run of sampler ticks applied to one button from its
constructed state (buffer of 32 slots), in which consecutive changes of the raw position
are at least `BUTTON_DEBOUNCE` ms apart on the 32-bit clock, the first change comes at a
clock reading at least `BUTTON_DEBOUNCE` away from 0 (the constructor's
`lastDebounceTime`), and there are at most 31 changes (the queue never fills): the
sampler accepts exactly the ticks that show a change, the queue then holds one event per
change, in order, and so the number of Pressed-then-Released pairs in the queue equals
the number of press-release cycles of the raw sequence. -/
theorem C14_spaced_changes_accepted_once
    (pin mode debounce_ms longPress_ms multi_press_window_ms : Nat) (mem : List ButtonEvent)
    (ticks : List Tick) (hlen : mem.length = 32)
    (hfirst : ∀ c ∈ (rawChanges .RELEASED ticks).head?, debounce_ms ≤ usub c.now 0)
    (hspaced : spaced debounce_ms (rawChanges .RELEASED ticks))
    (hroom : (rawChanges .RELEASED ticks).length ≤ 31) :
    (MultiPressButton.ctor pin mode debounce_ms longPress_ms multi_press_window_ms
      mem).accepted ticks = rawChanges .RELEASED ticks ∧
    ((MultiPressButton.ctor pin mode debounce_ms longPress_ms multi_press_window_ms
      mem).pollTicks ticks).queued = (rawChanges .RELEASED ticks).map Tick.event ∧
    releases .RELEASED
      (((MultiPressButton.ctor pin mode debounce_ms longPress_ms multi_press_window_ms
        mem).pollTicks ticks).queued.map fun e => e.buttonPosition) =
      releases .RELEASED (ticks.map Tick.position) := by
  have hchain : spacedFrom debounce_ms 0 (rawChanges .RELEASED ticks) := by
    cases hc : rawChanges .RELEASED ticks with
    | nil => trivial
    | cons c cs =>
      rw [hc] at hfirst hspaced
      exact ⟨hfirst c rfl, hspaced⟩
  obtain ⟨h1, h2⟩ := pollTicks_changes
    (MultiPressButton.ctor pin mode debounce_ms longPress_ms multi_press_window_ms mem)
    ticks hchain
  have h0 : (MultiPressButton.ctor pin mode debounce_ms longPress_ms
      multi_press_window_ms mem).queued = [] := ringSlice_empty _ _
  have hq := acceptAll_queued
    (MultiPressButton.ctor pin mode debounce_ms longPress_ms multi_press_window_ms mem)
    (rawChanges .RELEASED ticks) (Nat.zero_lt_succ 31) (Nat.zero_lt_succ 31) hlen (by
      rw [h0]
      simpa using hroom)
  rw [h0, List.nil_append] at hq
  have h2' : (MultiPressButton.ctor pin mode debounce_ms longPress_ms multi_press_window_ms
      mem).pollTicks ticks = (MultiPressButton.ctor pin mode debounce_ms longPress_ms
      multi_press_window_ms mem).acceptAll (rawChanges .RELEASED ticks) := h1
  refine ⟨h2, by rw [h2', hq], ?_⟩
  rw [h2', hq, List.map_map, ← releases_rawChanges]
  rfl

theorem C14_spaced_changes_accepted_once_witness :
    ((MultiPressButton.ctor 2 2 50 1000 1000 (List.replicate 32 default)).pollTicks
      [⟨0, 60, 60⟩, ⟨0, 70, 70⟩, ⟨1, 110, 111⟩, ⟨1, 120, 120⟩, ⟨0, 200, 200⟩]).queued =
      (rawChanges .RELEASED
        [⟨0, 60, 60⟩, ⟨0, 70, 70⟩, ⟨1, 110, 111⟩, ⟨1, 120, 120⟩, ⟨0, 200, 200⟩]).map
        Tick.event ∧
    rawChanges .RELEASED
        [⟨0, 60, 60⟩, ⟨0, 70, 70⟩, ⟨1, 110, 111⟩, ⟨1, 120, 120⟩, ⟨0, 200, 200⟩] =
      [⟨0, 60, 60⟩, ⟨1, 110, 111⟩, ⟨0, 200, 200⟩] :=
  ⟨(C14_spaced_changes_accepted_once 2 2 50 1000 1000 (List.replicate 32 default)
      [⟨0, 60, 60⟩, ⟨0, 70, 70⟩, ⟨1, 110, 111⟩, ⟨1, 120, 120⟩, ⟨0, 200, 200⟩]
      (by decide) (by decide) (by decide) (by decide)).2.1,
   by decide⟩

/-! ## The sampler alternates, and the timeout check shows no new edge -/

/-- A sampler pass either leaves the button as it was or takes the accept branch, and it
takes that branch only for a position that differs from the one on record. -/
theorem pollButton_cases (b : MultiPressButton) (t : Tick) :
    b._pollButton t.level t.now t.millis = b ∨
    (t.position ≠ b.lastButtonPosition ∧
      b.BUTTON_DEBOUNCE ≤ usub t.now b.lastDebounceTime ∧
      b._pollButton t.level t.now t.millis = b.accept t) := by
  by_cases hsame : t.position = b.lastButtonPosition
  · exact Or.inl (pollButton_same b _ _ _ hsame)
  · by_cases hlate : b.BUTTON_DEBOUNCE ≤ usub t.now b.lastDebounceTime
    · exact Or.inr ⟨hsame, hlate, pollButton_accept b t hsame hlate⟩
    · exact Or.inl (pollButton_rejected b _ _ _ hsame (Nat.lt_of_not_le hlate))

/-- The last entry of two lists joined is the last of the second, or else of the first. -/
theorem getLastD_append_default {α : Type} (l1 l2 : List α) (a : α) :
    (l1 ++ l2).getLastD a = l2.getLastD (l1.getLastD a) := by
  induction l1 generalizing a with
  | nil => rfl
  | cons x l1 ih => rw [List.cons_append, List.getLastD_cons, List.getLastD_cons, ih]

/-- Events taken from the queue cannot break `noNewEdge`: only the position of the last
of them matters for what follows. -/
theorem noNewEdge_unmarked_append (prev : ButtonPosition) (l1 l2 : List (ButtonEvent × Bool))
    (h1 : ∀ x ∈ l1, x.2 = false) :
    noNewEdge prev (l1 ++ l2) ↔
      noNewEdge ((l1.map fun x => x.1.buttonPosition).getLastD prev) l2 := by
  induction l1 generalizing prev with
  | nil => rfl
  | cons x l1 ih =>
    obtain ⟨e, mark⟩ := x
    have hm : mark = false := h1 (e, mark) (List.mem_cons_self _ _)
    subst hm
    rw [List.cons_append, noNewEdge, ih _ (fun y hy => h1 y (List.mem_cons_of_mem _ hy)),
      List.map_cons, List.getLastD_cons]
    simp

/-- The record kept by `_pollButtonLog` does not change what the pass does. -/
theorem pollButtonLog_fst (b : MultiPressButton) (level now millis : Nat) :
    (b._pollButtonLog level now millis).1 = b._pollButton level now millis := by
  simp only [MultiPressButton._pollButtonLog, MultiPressButton._pollButton]
  split_ifs <;> rfl

theorem pollTicksLog_fst (b : MultiPressButton) (ts : List Tick) :
    (b.pollTicksLog ts).1 = b.pollTicks ts := by
  induction ts generalizing b with
  | nil => rfl
  | cons t ts ih =>
    rw [MultiPressButton.pollTicksLog, pollTicks_cons, ← pollButtonLog_fst]
    exact ih _

/-- A sampler pass either does nothing and hands nothing to `_addEvent`, or it takes the
accept branch for a position that differs from the one on record and hands that event to
`_addEvent`. -/
theorem pollButtonLog_cases (b : MultiPressButton) (t : Tick) :
    b._pollButtonLog t.level t.now t.millis = (b, []) ∨
    (t.position ≠ b.lastButtonPosition ∧
      b._pollButtonLog t.level t.now t.millis = (b.accept t, [(t.event, b._isBufferFull)])) := by
  by_cases hsame : t.position = b.lastButtonPosition
  · left
    have hs : (if t.level = LOW then ButtonPosition.PRESSED else .RELEASED) =
        b.lastButtonPosition := hsame
    simp only [MultiPressButton._pollButtonLog]
    rw [if_pos hs]
  · have hs : (if t.level = LOW then ButtonPosition.PRESSED else .RELEASED) ≠
        b.lastButtonPosition := hsame
    by_cases hlate : b.BUTTON_DEBOUNCE ≤ usub t.now b.lastDebounceTime
    · right
      refine ⟨hsame, ?_⟩
      simp only [MultiPressButton._pollButtonLog]
      rw [if_neg hs, if_pos hlate]
      rfl
    · left
      simp only [MultiPressButton._pollButtonLog]
      rw [if_neg hs, if_neg hlate]

theorem pollTicksLog_cons (b : MultiPressButton) (t : Tick) (ts : List Tick) :
    b.pollTicksLog (t :: ts) =
      (((b._pollButtonLog t.level t.now t.millis).1.pollTicksLog ts).1,
        (b._pollButtonLog t.level t.now t.millis).2 ++
          ((b._pollButtonLog t.level t.now t.millis).1.pollTicksLog ts).2) := rfl

/-- A run of sampler passes on a well-formed queue: the queue stays well formed, the read
index stays, the queue gains the handed events that did not meet a full queue, the handed
positions alternate starting from the position on record, and the position on record at
the end is the last one handed. -/
theorem pollTicksLog_spec (b : MultiPressButton) (ts : List Tick) (hok : b.queueOk) :
    (b.pollTicksLog ts).1.queueOk ∧
    (b.pollTicksLog ts).1.readIndex = b.readIndex ∧
    (b.pollTicksLog ts).1.queued =
      b.queued ++ (((b.pollTicksLog ts).2.filter fun h => !h.2).map fun h => h.1) ∧
    (b.pollTicksLog ts).2.length ≤ ts.length ∧
    List.Chain (· ≠ ·) b.lastButtonPosition
      ((b.pollTicksLog ts).2.map fun h => h.1.buttonPosition) ∧
    (b.pollTicksLog ts).1.lastButtonPosition =
      ((b.pollTicksLog ts).2.map fun h => h.1.buttonPosition).getLastD
        b.lastButtonPosition := by
  induction ts generalizing b with
  | nil => exact ⟨hok, rfl, by simp [MultiPressButton.pollTicksLog], Nat.le_refl _,
      List.Chain.nil, rfl⟩
  | cons t ts ih =>
    rw [pollTicksLog_cons]
    rcases pollButtonLog_cases b t with h | ⟨hdiff, h⟩
    · rw [h]
      obtain ⟨i1, i2, i3, i4, i5, i6⟩ := ih b hok
      refine ⟨i1, i2, ?_, ?_, ?_, ?_⟩
      · simpa using i3
      · simpa using Nat.le_succ_of_le i4
      · simpa using i5
      · simpa using i6
    · rw [h]
      obtain ⟨hr, hw, hlen⟩ := hok
      obtain ⟨w1, w2, w3⟩ := addEvent_wf b t.position t.millis hw
      have hok2 : (b.accept t).queueOk := ⟨w1 ▸ hr, w2, w3.trans hlen⟩
      have hpos : (b.accept t).lastButtonPosition = t.position := rfl
      have hrd : (b.accept t).readIndex = b.readIndex := w1
      obtain ⟨i1, i2, i3, i4, i5, i6⟩ := ih (b.accept t) hok2
      rw [hpos] at i5 i6
      refine ⟨i1, i2.trans hrd, ?_, ?_, ?_, ?_⟩
      · show ((b.accept t).pollTicksLog ts).1.queued = _
        rw [i3]
        by_cases hfull : (b.writeIndex + 1) % 32 = b.readIndex
        · have hf : b._isBufferFull = true := (isBufferFull_iff b).mpr hfull
          have hq : (b.accept t).queued = b.queued := by
            show (b._addEvent t.position t.millis).queued = _
            rw [addEvent_full b _ _ hfull]
          rw [hq, hf]
          simp
        · have hf : b._isBufferFull = false := by
            cases hb : b._isBufferFull
            · rfl
            · exact absurd ((isBufferFull_iff b).mp hb) hfull
          have hq : (b.accept t).queued = b.queued ++ [t.event] :=
            addEvent_queued b t.position t.millis hr hw hlen hfull
          rw [hq, hf]
          simp
      · simpa using Nat.succ_le_succ i4
      · simp only [List.singleton_append, List.map_cons, List.chain_cons]
        exact ⟨fun heq => hdiff heq.symm, i5⟩
      · simp only [List.singleton_append, List.map_cons, List.getLastD_cons]
        exact i6

/-- When the position on record is that of the newest queued event, or `prev` for an empty
queue, sampler passes that lose no event keep it so. -/
theorem pollTicksLog_sync (b : MultiPressButton) (ts : List Tick) (prev : ButtonPosition)
    (hok : b.queueOk)
    (hsync : (b.queued.map fun e => e.buttonPosition).getLastD prev = b.lastButtonPosition)
    (hdrop : ∀ h ∈ (b.pollTicksLog ts).2, h.2 = false) :
    (((b.pollTicksLog ts).1.queued).map fun e => e.buttonPosition).getLastD prev =
      (b.pollTicksLog ts).1.lastButtonPosition := by
  obtain ⟨-, -, i3, -, -, i6⟩ := pollTicksLog_spec b ts hok
  have hfil : ((b.pollTicksLog ts).2.filter fun h => !h.2) = (b.pollTicksLog ts).2 := by
    rw [List.filter_eq_self]
    intro h hh
    simp [hdrop h hh]
  rw [i3, hfil, List.map_append, getLastD_append_default, hsync, i6, List.map_map]
  rfl

/-- A queue whose indices coincide is empty, and only such a queue is. -/
theorem queued_eq_nil_iff (b : MultiPressButton) (hok : b.queueOk) :
    b.queued = [] ↔ b.readIndex = b.writeIndex := by
  obtain ⟨hr, hw, -⟩ := hok
  rw [← List.length_eq_zero, MultiPressButton.queued, ringSlice_length]
  omega

theorem loopTicks_headD_tail (irq : List LoopInterrupts) :
    (irq.headD ⟨[], []⟩).beforeTest.length + (irq.headD ⟨[], []⟩).beforeAdvance.length +
        (irq.tail.map fun l => l.beforeTest.length + l.beforeAdvance.length).sum =
      (irq.map fun l => l.beforeTest.length + l.beforeAdvance.length).sum := by
  cases irq <;> simp

/-- The loop ends at an evaluation of its condition that finds the indices equal. -/
theorem processLoopIrq_exit (fuel : Nat) (irq : List LoopInterrupts) (b : MultiPressButton)
    (heq : (b.pollTicksLog (irq.headD ⟨[], []⟩).beforeTest).1.readIndex =
      (b.pollTicksLog (irq.headD ⟨[], []⟩).beforeTest).1.writeIndex) :
    b.processLoopIrq fuel irq =
      some ⟨(b.pollTicksLog (irq.headD ⟨[], []⟩).beforeTest).1,
        (b.pollTicksLog (irq.headD ⟨[], []⟩).beforeTest).2, []⟩ := by
  cases fuel <;>
    simp only [MultiPressButton.processLoopIrq, heq, ne_eq, not_true_eq_false, if_false]

/-- One iteration of the loop: the event at the read index is classified, the passes of
the iteration run, the read index moves on. -/
theorem processLoopIrq_step (fuel : Nat) (irq : List LoopInterrupts) (b : MultiPressButton)
    (hne : (b.pollTicksLog (irq.headD ⟨[], []⟩).beforeTest).1.readIndex ≠
      (b.pollTicksLog (irq.headD ⟨[], []⟩).beforeTest).1.writeIndex) :
    b.processLoopIrq (fuel + 1) irq =
      (((((b.pollTicksLog (irq.headD ⟨[], []⟩).beforeTest).1._processEvent
          ((b.pollTicksLog (irq.headD ⟨[], []⟩).beforeTest).1.eventBuffer.getD
            (b.pollTicksLog (irq.headD ⟨[], []⟩).beforeTest).1.readIndex default)).pollTicksLog
          (irq.headD ⟨[], []⟩).beforeAdvance).1.withReadIndex
          (((((b.pollTicksLog (irq.headD ⟨[], []⟩).beforeTest).1._processEvent
            ((b.pollTicksLog (irq.headD ⟨[], []⟩).beforeTest).1.eventBuffer.getD
              (b.pollTicksLog (irq.headD ⟨[], []⟩).beforeTest).1.readIndex
              default)).pollTicksLog
            (irq.headD ⟨[], []⟩).beforeAdvance).1.readIndex + 1) % 32)).processLoopIrq fuel
          irq.tail).map fun r =>
        ⟨r.button,
          (b.pollTicksLog (irq.headD ⟨[], []⟩).beforeTest).2 ++
            (((b.pollTicksLog (irq.headD ⟨[], []⟩).beforeTest).1._processEvent
              ((b.pollTicksLog (irq.headD ⟨[], []⟩).beforeTest).1.eventBuffer.getD
                (b.pollTicksLog (irq.headD ⟨[], []⟩).beforeTest).1.readIndex
                default)).pollTicksLog (irq.headD ⟨[], []⟩).beforeAdvance).2 ++ r.handed,
          ((b.pollTicksLog (irq.headD ⟨[], []⟩).beforeTest).1.eventBuffer.getD
            (b.pollTicksLog (irq.headD ⟨[], []⟩).beforeTest).1.readIndex default, false) ::
            r.classified⟩ := by
  simp only [MultiPressButton.processLoopIrq, ne_eq, hne, not_false_eq_true, if_true,
    and_ring_mask]
  rfl

/-- The loop of `process` on a well-formed queue, with sampler passes running inside it:
the loop ends, every event it classifies comes from the queue, the queue is empty at the
end, and when no handed event was lost the position on record at the end is that of the
last event classified (`prev` if none was, given that the position on record matched the
newest queued event, or `prev`, at the start). -/
theorem processLoopIrq_spec (fuel : Nat) (irq : List LoopInterrupts) (b : MultiPressButton)
    (hok : b.queueOk)
    (hfuel : b.queued.length +
      (irq.map fun l => l.beforeTest.length + l.beforeAdvance.length).sum ≤ fuel) :
    ∃ r, b.processLoopIrq fuel irq = some r ∧ r.button.queueOk ∧ r.button.queued = [] ∧
      (∀ x ∈ r.classified, x.2 = false) ∧
      ∀ prev,
        (b.queued.map fun e => e.buttonPosition).getLastD prev = b.lastButtonPosition →
        (∀ h ∈ r.handed, h.2 = false) →
        (r.classified.map fun x => x.1.buttonPosition).getLastD prev =
          r.button.lastButtonPosition := by
  induction fuel generalizing irq b with
  | zero =>
    obtain ⟨i1, -, i3, i4, -, -⟩ := pollTicksLog_spec b (irq.headD ⟨[], []⟩).beforeTest hok
    have hsum := loopTicks_headD_tail irq
    have hfl := List.length_filter_le (fun h : ButtonEvent × Bool => !h.2)
      (b.pollTicksLog (irq.headD ⟨[], []⟩).beforeTest).2
    have hq0 : (b.pollTicksLog (irq.headD ⟨[], []⟩).beforeTest).1.queued = [] := by
      rw [← List.length_eq_zero, i3, List.length_append, List.length_map]
      omega
    have heq := (queued_eq_nil_iff _ i1).mp hq0
    refine ⟨_, processLoopIrq_exit 0 irq b heq, i1, hq0, fun x hx => absurd hx (List.not_mem_nil x), ?_⟩
    intro prev hsync hdrop
    have h := pollTicksLog_sync b _ prev hok hsync hdrop
    rw [hq0] at h
    exact h
  | succ fuel ih =>
    obtain ⟨i1, i2, i3, i4, -, -⟩ := pollTicksLog_spec b (irq.headD ⟨[], []⟩).beforeTest hok
    by_cases heq : (b.pollTicksLog (irq.headD ⟨[], []⟩).beforeTest).1.readIndex =
        (b.pollTicksLog (irq.headD ⟨[], []⟩).beforeTest).1.writeIndex
    · have hq0 := (queued_eq_nil_iff _ i1).mpr heq
      refine ⟨_, processLoopIrq_exit _ irq b heq, i1, hq0, fun x hx => absurd hx (List.not_mem_nil x), ?_⟩
      intro prev hsync hdrop
      have h := pollTicksLog_sync b _ prev hok hsync hdrop
      rw [hq0] at h
      exact h
    · rw [processLoopIrq_step fuel irq b heq]
      generalize hs1 : b.pollTicksLog (irq.headD ⟨[], []⟩).beforeTest = s1 at *
      obtain ⟨hr1, hw1, hlen1⟩ := i1
      obtain ⟨g1, g2, g3, g4, -⟩ :=
        processEvent_frame s1.1 (s1.1.eventBuffer.getD s1.1.readIndex default)
      generalize hb1 : s1.1._processEvent (s1.1.eventBuffer.getD s1.1.readIndex default) = b1
        at *
      have hok1 : b1.queueOk := ⟨g3 ▸ hr1, g2 ▸ hw1, g1 ▸ hlen1⟩
      have hqb1 : b1.queued = s1.1.queued := by
        simp only [MultiPressButton.queued, g1, g2, g3]
      have hqe : s1.1.queued = s1.1.eventBuffer.getD s1.1.readIndex default ::
          ringSlice s1.1.eventBuffer ((s1.1.readIndex + 1) % 32) s1.1.writeIndex :=
        ringSlice_cons _ _ _ hr1 hw1 heq
      obtain ⟨j1, j2, j3, j4, -, -⟩ :=
        pollTicksLog_spec b1 (irq.headD ⟨[], []⟩).beforeAdvance hok1
      have hsync2 := fun prev => pollTicksLog_sync b1 (irq.headD ⟨[], []⟩).beforeAdvance prev
        hok1
      generalize hs2 : b1.pollTicksLog (irq.headD ⟨[], []⟩).beforeAdvance = s2 at *
      obtain ⟨hr2, hw2, hlen2⟩ := j1
      have hne2 : s2.1.readIndex ≠ s2.1.writeIndex := by
        intro h
        have h0 := (queued_eq_nil_iff s2.1 ⟨hr2, hw2, hlen2⟩).mpr h
        rw [j3, hqb1, hqe] at h0
        cases h0
      have hq2 : s2.1.queued = s2.1.eventBuffer.getD s2.1.readIndex default ::
          (s2.1.withReadIndex ((s2.1.readIndex + 1) % 32)).queued :=
        ringSlice_cons _ _ _ hr2 hw2 hne2
      have hhead : s2.1.eventBuffer.getD s2.1.readIndex default =
          s1.1.eventBuffer.getD s1.1.readIndex default := by
        have h := hq2
        rw [j3, hqb1, hqe, List.cons_append] at h
        exact (List.cons.inj h).1.symm
      rw [hhead] at hq2
      have hok2 : (s2.1.withReadIndex ((s2.1.readIndex + 1) % 32)).queueOk :=
        ⟨Nat.mod_lt _ (by norm_num), hw2, hlen2⟩
      have hsum := loopTicks_headD_tail irq
      have hfl1 := List.length_filter_le (fun h : ButtonEvent × Bool => !h.2) s1.2
      have hfl2 := List.length_filter_le (fun h : ButtonEvent × Bool => !h.2) s2.2
      have hlq1 := congrArg List.length i3
      have hlq2 := congrArg List.length j3
      have hlq3 := congrArg List.length hq2
      rw [List.length_append, List.length_map] at hlq1 hlq2
      rw [List.length_cons] at hlq3
      rw [hqb1] at hlq2
      obtain ⟨r, hrun, k1, k2, k3, k4⟩ := ih irq.tail
        (s2.1.withReadIndex ((s2.1.readIndex + 1) % 32)) hok2 (by omega)
      refine ⟨⟨r.button, s1.2 ++ s2.2 ++ r.handed,
        (s1.1.eventBuffer.getD s1.1.readIndex default, false) :: r.classified⟩,
        by rw [hrun]; rfl, k1, k2, ?_, ?_⟩
      · intro x hx
        rcases List.mem_cons.mp hx with hx | hx
        · rw [hx]
        · exact k3 x hx
      · intro prev hsync hdrop
        have hd1 : ∀ h ∈ s1.2, h.2 = false := fun h hh =>
          hdrop h (List.mem_append_left _ (List.mem_append_left _ hh))
        have hd2 : ∀ h ∈ s2.2, h.2 = false := fun h hh =>
          hdrop h (List.mem_append_left _ (List.mem_append_right _ hh))
        have hd3 : ∀ h ∈ r.handed, h.2 = false := fun h hh =>
          hdrop h (List.mem_append_right _ hh)
        have hy1 := pollTicksLog_sync b (irq.headD ⟨[], []⟩).beforeTest prev hok hsync
          (by rw [hs1]; exact hd1)
        rw [hs1] at hy1
        have hy2 := hsync2 prev (by rw [hqb1, g4]; exact hy1) hd2
        rw [hq2, List.map_cons, List.getLastD_cons] at hy2
        have hfin := k4 (s1.1.eventBuffer.getD s1.1.readIndex default).buttonPosition hy2 hd3
        rw [List.map_cons, List.getLastD_cons]
        exact hfin

/-- With no sampler pass inside it, the loop with interrupts is the loop of `process`. -/
theorem processLoopIrq_nil (fuel : Nat) (b : MultiPressButton) :
    (b.processLoopIrq fuel []).map Outcome.button = b.processLoop fuel := by
  induction fuel generalizing b with
  | zero =>
    by_cases h : b.readIndex = b.writeIndex
    · simp only [MultiPressButton.processLoopIrq, MultiPressButton.processLoop, List.headD_nil,
        MultiPressButton.pollTicksLog, h, ne_eq, not_true_eq_false, if_false, Option.map_some']
    · simp only [MultiPressButton.processLoopIrq, MultiPressButton.processLoop, List.headD_nil,
        MultiPressButton.pollTicksLog, h, ne_eq, not_false_eq_true, if_true, Option.map_none']
  | succ fuel ih =>
    by_cases h : b.readIndex = b.writeIndex
    · simp only [MultiPressButton.processLoopIrq, MultiPressButton.processLoop, List.headD_nil,
        MultiPressButton.pollTicksLog, h, ne_eq, not_true_eq_false, if_false, Option.map_some']
    · simp only [MultiPressButton.processLoopIrq, MultiPressButton.processLoop, List.headD_nil,
        MultiPressButton.pollTicksLog, h, ne_eq, not_false_eq_true, if_true, List.tail_nil,
        Option.map_map]
      exact ih _

/-- With no sampler pass inside it, `processIrq` is `process`. -/
theorem processIrq_no_interrupt (b : MultiPressButton) (millis : Nat) :
    (b.processIrq ⟨[], []⟩ millis).map Outcome.button = b.process millis := by
  simp only [MultiPressButton.processIrq, MultiPressButton.process, ← processLoopIrq_nil,
    Option.map_map]
  rfl

/-- One `process` call on a well-formed queue with sampler passes running inside its loop
and none between the loop and the timeout check: the call returns with the queue empty;
it classifies events from the queue and then the timeout check, and when no handed event
was lost the check carries the position of the event classified before it. -/
theorem processIrq_spec (b : MultiPressButton) (irq : Interrupts) (millis : Nat)
    (hok : b.queueOk) (hcheck : irq.beforeCheck = []) :
    ∃ p cl, b.processIrq irq millis = some p ∧ p.button.queueOk ∧ p.button.queued = [] ∧
      (∀ x ∈ cl, x.2 = false) ∧
      p.classified = cl ++ [(⟨millis, p.button.lastButtonPosition⟩, true)] ∧
      ∀ prev,
        (b.queued.map fun e => e.buttonPosition).getLastD prev = b.lastButtonPosition →
        (∀ h ∈ p.handed, h.2 = false) →
        (cl.map fun x => x.1.buttonPosition).getLastD prev = p.button.lastButtonPosition := by
  have hq32 : b.queued.length < 32 := by
    rw [MultiPressButton.queued, ringSlice_length]
    exact Nat.mod_lt _ (by norm_num)
  obtain ⟨r, hrun, ⟨k1r, k1w, k1l⟩, k2, k3, k4⟩ :=
    processLoopIrq_spec (RING_BUFFER_SIZE + irq.loopTicks) irq.inLoop b hok (by
      simp only [RING_BUFFER_SIZE, Interrupts.loopTicks]
      omega)
  obtain ⟨g1, g2, g3, g4, -⟩ := processEvent_frame r.button ⟨millis, r.button.lastButtonPosition⟩
  refine ⟨⟨r.button._processEvent ⟨millis, r.button.lastButtonPosition⟩, r.handed ++ [],
    r.classified ++ [(⟨millis, r.button.lastButtonPosition⟩, true)]⟩, r.classified, ?_,
    ⟨g3 ▸ k1r, g2 ▸ k1w, g1 ▸ k1l⟩, ?_, k3, ?_, ?_⟩
  · simp only [MultiPressButton.processIrq, hrun, hcheck, Option.map_some']
    rfl
  · show ringSlice (r.button._processEvent _).eventBuffer (r.button._processEvent _).readIndex
      (r.button._processEvent _).writeIndex = []
    rw [g1, g2, g3]
    exact k2
  · show _ = r.classified ++ [(⟨millis, (r.button._processEvent _).lastButtonPosition⟩, true)]
    rw [g4]
  · intro prev hsync hdrop
    show _ = (r.button._processEvent _).lastButtonPosition
    rw [g4]
    exact k4 prev hsync (fun h hh => hdrop h (List.mem_append_left _ hh))

theorem checkUnpreempted_process (irq : Interrupts) (millis : Nat)
    (h : (Step.process irq millis).checkUnpreempted = true) : irq.beforeCheck = [] :=
  List.isEmpty_iff.mp h

/-- A run of sampler passes and `process` calls from a well-formed queue, with no sampler
pass between the loop of a `process` call and its timeout check: the run ends, and when no
handed event was lost no timeout check shows a new edge. -/
theorem run_noNewEdge (steps : List Step) (b : MultiPressButton) (hok : b.queueOk)
    (hcheck : ∀ s ∈ steps, s.checkUnpreempted = true) :
    ∃ r, b.run steps = some r ∧
      ∀ prev,
        (b.queued.map fun e => e.buttonPosition).getLastD prev = b.lastButtonPosition →
        (∀ h ∈ r.handed, h.2 = false) → noNewEdge prev r.classified := by
  induction steps generalizing b with
  | nil => exact ⟨⟨b, [], []⟩, rfl, fun _ _ _ => trivial⟩
  | cons s ss ih =>
    have hrest : ∀ s ∈ ss, s.checkUnpreempted = true := fun x hx =>
      hcheck x (List.mem_cons_of_mem _ hx)
    cases s with
    | tick t =>
      obtain ⟨i1, -⟩ := pollTicksLog_spec b [t] hok
      have hsync1 := fun prev => pollTicksLog_sync b [t] prev hok
      have hlog : b.pollTicksLog [t] =
          ((b._pollButtonLog t.level t.now t.millis).1,
            (b._pollButtonLog t.level t.now t.millis).2) := by
        rw [pollTicksLog_cons]
        show (_, _ ++ []) = _
        rw [List.append_nil]
        rfl
      rw [hlog] at i1 hsync1
      obtain ⟨r, hrun, k⟩ := ih (b._pollButtonLog t.level t.now t.millis).1 i1 hrest
      refine ⟨⟨r.button, (b._pollButtonLog t.level t.now t.millis).2 ++ r.handed,
        r.classified⟩, ?_, ?_⟩
      · simp only [MultiPressButton.run, hrun, Option.map_some']
      · intro prev hsync hdrop
        exact k prev (hsync1 prev hsync (fun h hh => hdrop h (List.mem_append_left _ hh)))
          (fun h hh => hdrop h (List.mem_append_right _ hh))
    | process irq millis =>
      have hbc := checkUnpreempted_process irq millis (hcheck _ (List.mem_cons_self _ _))
      obtain ⟨p, cl, hp, pok, pq, pcl, pclass, psync⟩ := processIrq_spec b irq millis hok hbc
      obtain ⟨r, hrun, k⟩ := ih p.button pok hrest
      refine ⟨⟨r.button, p.handed ++ r.handed, p.classified ++ r.classified⟩, ?_, ?_⟩
      · simp only [MultiPressButton.run, hp, Option.some_bind, hrun, Option.map_some']
      · intro prev hsync hdrop
        show noNewEdge prev (p.classified ++ r.classified)
        rw [pclass, List.append_assoc, noNewEdge_unmarked_append prev cl _ pcl,
          psync prev hsync (fun h hh => hdrop h (List.mem_append_left _ hh))]
        refine ⟨fun _ => rfl, k _ ?_ (fun h hh => hdrop h (List.mem_append_right _ hh))⟩
        rw [pq]
        rfl

